import Mathlib

/-!
Shallow embedding of the keyboard-shortcut configuration model from
`cosmic-settings/src/pages/input/keyboard/shortcuts/common.rs`, together with
models of the external collaborators it relies on (key bindings, shortcut
tables, the layered configuration store).  Pure view code (widget
construction) is not embedded; every state-mutating message handler is.
-/

namespace Cosmic

/-- Modelled from the spec: kinds of I/O failure reported by the configuration
store (external crate `cosmic-config`); only the not-found kind is
distinguished by the code under study. -/
inductive IoErrorKind where
  | notFound
  | permissionDenied
  | otherKind (code : Nat)
deriving DecidableEq

/-- Modelled from the spec: error type of the configuration store (external
crate `cosmic-config`): a keyed read failure carrying an I/O error kind, plus
further failure variants that the code under study never inspects. -/
inductive ConfigError where
  | getKey (path : String) (kind : IoErrorKind)
  | setKey (path : String)
  | parseError (msg : String)
deriving DecidableEq

/-- Modelled from the spec: platform key symbols (external); a symbol is either
one of the named constants of the platform namespace or derived from a literal
character. -/
inductive Keysym where
  | named (name : String)
  | fromChar (c : Char)
deriving DecidableEq

/-- Modelled from the spec: the identifier of what a shortcut triggers
(external crate `cosmic-settings-config`): the `Disable` sentinel, an
arbitrary spawned command, or one of the remaining built-in operations
(collapsed to an indexed constructor, since the code under study only
compares actions for equality and matches on `Disable` and `Spawn`). -/
inductive Action where
  | Disable
  | Spawn (command : String)
  | System (id : Nat)
deriving DecidableEq

/-- Modifier flags of a binding (external crate `cosmic-settings-config`). -/
structure Modifiers where
  ctrl : Bool
  alt : Bool
  shift : Bool
  logo : Bool
deriving DecidableEq

/-- Modelled from the spec: a key binding (external crate
`cosmic-settings-config`): modifier flags plus an optional key symbol.  The
view-only description metadata is omitted (it never enters comparisons or
table keys in the code under study). -/
structure Binding where
  modifiers : Modifiers
  key : Option Keysym
deriving DecidableEq

/-- A binding is set iff it carries a key symbol. -/
def Binding.is_set (b : Binding) : Bool := b.key.isSome

/-- The default binding: no modifiers, no key symbol. -/
def Binding.default : Binding := { modifiers := ⟨false, false, false, false⟩, key := none }

/-- Display label of a key symbol, used when formatting a binding. -/
def Keysym.label : Keysym → String
  | .named s => s
  | .fromChar c => String.mk [c]

/-- Joining formatter tokens with the `+` separator. -/
def joinPlus : List String → String
  | [] => ""
  | [s] => s
  | s :: rest => s ++ "+" ++ joinPlus rest

/-- Modelled from the spec: canonical string form of a binding (external crate
`cosmic-settings-config`): modifier tokens followed by the key-symbol name. -/
def Binding.toString (b : Binding) : String :=
  joinPlus ((if b.modifiers.logo then ["Super"] else [])
    ++ (if b.modifiers.ctrl then ["Ctrl"] else [])
    ++ (if b.modifiers.alt then ["Alt"] else [])
    ++ (if b.modifiers.shift then ["Shift"] else [])
    ++ (match b.key with | some k => [k.label] | none => []))

/-- Splits a character list at every `+`. -/
def splitPlus : List Char → List Char → List (List Char)
  | [], acc => [acc.reverse]
  | '+' :: rest, acc => acc.reverse :: splitPlus rest []
  | c :: rest, acc => splitPlus rest (c :: acc)

/-- Modelled from the spec: name-to-key-symbol lookup of the binding grammar
(external crate `cosmic-settings-config`): a single character is taken
literally, a few names map to named symbols, anything else (including the
empty token) is unknown. -/
def keysym_from_name (cs : List Char) : Option Keysym :=
  match cs with
  | [c] => some (.fromChar c)
  | _ =>
    match String.mk (cs.map Char.toLower) with
    | "return" => some (.named "Return")
    | "space" => some (.named "space")
    | "escape" => some (.named "Escape")
    | "tab" => some (.named "Tab")
    | _ => none

/-- One token of the binding grammar: a modifier name sets its flag, anything
else must resolve to a key symbol. -/
def Binding.parseToken (b : Binding) (cs : List Char) : Except String Binding :=
  match String.mk (cs.map Char.toLower) with
  | "ctrl" => .ok { b with modifiers := { b.modifiers with ctrl := true } }
  | "alt" => .ok { b with modifiers := { b.modifiers with alt := true } }
  | "shift" => .ok { b with modifiers := { b.modifiers with shift := true } }
  | "super" => .ok { b with modifiers := { b.modifiers with logo := true } }
  | _ =>
    match keysym_from_name cs with
    | some k => .ok { b with key := some k }
    | none => .error "unknown key"

/-- Modelled from the spec: the binding textual grammar (external crate
`cosmic-settings-config`): `+`-separated modifier tokens and key-symbol
names; an unknown token (in particular the empty token produced by an empty
string) is a parse error, while a string of modifier tokens alone parses to
an unset binding. -/
def Binding.from_str (s : String) : Except String Binding :=
  (splitPlus s.data []).foldlM Binding.parseToken Binding.default

/-- The shortcuts table (external crate `cosmic-settings-config`): a mapping
from bindings to actions, embedded as its association list; map operations
below model the B-tree map used by the crate (at most one entry per key). -/
structure Shortcuts where
  entries : List (Binding × Action)
deriving DecidableEq

/-- The empty shortcuts table (`Shortcuts::default()`). -/
def Shortcuts.empty : Shortcuts := ⟨[]⟩

/-- Map lookup: the action of the first entry keyed by the binding. -/
def getKey : List (Binding × Action) → Binding → Option Action
  | [], _ => none
  | p :: rest, b => if p.1 == b then some p.2 else getKey rest b

/-- Map insertion: overwrites the value of an existing entry in place,
otherwise appends a fresh entry (the lookup-relevant behavior of
`BTreeMap::insert`). -/
def insertKey : List (Binding × Action) → Binding → Action → List (Binding × Action)
  | [], b, a => [(b, a)]
  | p :: rest, b, a => if p.1 == b then (b, a) :: rest else p :: insertKey rest b a

/-- Map removal: drops every entry keyed by the binding (the behavior of
`BTreeMap::remove`, and of the `retain` call in `config_remove`). -/
def removeKey (l : List (Binding × Action)) (b : Binding) : List (Binding × Action) :=
  l.filter (fun p => !(p.1 == b))

/-- Key uniqueness of an association list. -/
def keysNodup : List (Binding × Action) → Bool
  | [] => true
  | p :: rest => !(rest.any (fun q => q.1 == p.1)) && keysNodup rest

/-- Merge used by `shortcuts_system_config`: `shortcuts.0.extend(custom.0)`,
one insertion per custom entry. -/
def mergeExtend (d c : List (Binding × Action)) : List (Binding × Action) :=
  c.foldl (fun acc p => insertKey acc p.1 p.2) d

/-- Merge used by `on_enter`: per custom entry, `remove` then `insert`. -/
def mergeOnEnter (d c : List (Binding × Action)) : List (Binding × Action) :=
  c.foldl (fun acc p => insertKey (removeKey acc p.1) p.1 p.2) d

/-- Iterator `Shortcuts::shortcuts(&action)` of the external crate: the
bindings of every entry mapped to the given action, in table order. -/
def Shortcuts.shortcuts (s : Shortcuts) (action : Action) : List Binding :=
  (s.entries.filter (fun p => p.2 == action)).map (·.1)

/-- Stable-indexed collection with O(1) removal (the `slab` crate): entries
are slots, a removed slot stays vacant, lookups by key are positional. -/
structure Slab (α : Type) where
  entries : List (Option α)
deriving DecidableEq

namespace Slab

/-- The empty slab. -/
def empty {α : Type} : Slab α := ⟨[]⟩

/-- Fallible lookup by key (`Slab::get`). -/
def get? {α : Type} (s : Slab α) (i : Nat) : Option α :=
  s.entries.getD i none

/-- Occupancy test (`Slab::contains`). -/
def containsKey {α : Type} (s : Slab α) (i : Nat) : Bool :=
  (s.get? i).isSome

/-- Overwrites the slot at a key. -/
def set {α : Type} (s : Slab α) (i : Nat) (a : α) : Slab α :=
  ⟨s.entries.set i (some a)⟩

/-- Vacates the slot at a key (the state change of a successful remove). -/
def erase {α : Type} (s : Slab α) (i : Nat) : Slab α :=
  ⟨s.entries.set i none⟩

/-- First vacant slot, if any. -/
def firstVacant {α : Type} : List (Option α) → Option Nat
  | [] => none
  | none :: _ => some 0
  | some _ :: rest => (firstVacant rest).map (· + 1)

/-- Insertion (`Slab::insert`): fills a vacant slot if one exists, otherwise
appends; returns the key of the new entry. -/
def insert {α : Type} (s : Slab α) (a : α) : Nat × Slab α :=
  match firstVacant s.entries with
  | some i => (i, s.set i a)
  | none => (s.entries.length, ⟨s.entries ++ [some a]⟩)

/-- Fallible removal: `Slab::remove` panics when the key is vacant, which the
caller observes as the `none` case here. -/
def remove? {α : Type} (s : Slab α) (i : Nat) : Option (α × Slab α) :=
  match s.get? i with
  | some a => some (a, s.erase i)
  | none => none

/-- Occupied entries with their keys, in key order (slab iteration order). -/
def itemsFrom {α : Type} : Nat → List (Option α) → List (Nat × α)
  | _, [] => []
  | i, none :: rest => itemsFrom (i + 1) rest
  | i, some a :: rest => (i, a) :: itemsFrom (i + 1) rest

/-- Occupied entries with their keys (slab iteration). -/
def items {α : Type} (s : Slab α) : List (Nat × α) :=
  itemsFrom 0 s.entries

/-- Emptiness (`Slab::is_empty`: no occupied entry). -/
def isEmpty {α : Type} (s : Slab α) : Bool :=
  s.entries.all Option.isNone

end Slab

/-- One UI row: widget identity (an opaque unique token externally, modelled
as a number), the committed binding, the transient edit buffer, whether the
binding equals a system default, and the editing flag. -/
structure ShortcutBinding where
  id : Nat
  binding : Binding
  input : String
  is_default : Bool
  editing : Bool
deriving DecidableEq

/-- All bindings of one action: the row slab, the localized description, the
count of bindings diverging from defaults, and the row currently awaiting raw
key capture. -/
structure ShortcutModel where
  action : Action
  bindings : Slab ShortcutBinding
  description : String
  modified : Nat
  request_key_input : Option Nat
deriving DecidableEq

/-- Modelled from the spec: localization lookup for an action (external
localization store), a total label function. -/
def localize_action : Action → String
  | .Disable => "disable"
  | .Spawn command => "spawn " ++ command
  | .System id => "system action " ++ Nat.repr id

/-- Modelled from the spec: localization of a custom (spawned) action together
with its binding (external localization store). -/
def localize_custom_action (a : Action) (b : Binding) : String :=
  localize_action a ++ " (" ++ b.toString ++ ")"

/-- Fold step of `ShortcutModel::new`: insert one row for a binding (its
widget id modelled by the slab capacity at insertion time) and count it when
it diverges from the defaults. -/
def ShortcutModel.newStep (defaults : Shortcuts) (action : Action)
    (acc : Slab ShortcutBinding × Nat) (binding : Binding) : Slab ShortcutBinding × Nat :=
  let is_default := getKey defaults.entries binding == some action
  let slab := (acc.1.insert
    { id := acc.1.entries.length, binding, input := "", is_default, editing := false }).2
  (slab, if is_default then acc.2 else acc.2 + 1)

/-- `ShortcutModel::new`: builds the row slab from the merged table's bindings
for the action, and the `modified` count — rows diverging from the defaults
plus defaults of this action absent from the rows. -/
def ShortcutModel.new (defaults : Shortcuts) (shortcuts : Shortcuts) (action : Action) :
    ShortcutModel :=
  let bm := (shortcuts.shortcuts action).foldl (ShortcutModel.newStep defaults action)
    (Slab.empty, 0)
  let bindings := bm.1
  let localized_description :=
    match action with
    | .Spawn _ =>
      ((bindings.items.map (fun p => localize_custom_action action p.2.binding)).take 1).foldl
        (· ++ ·) ""
    | _ => localize_action action
  { description := localized_description
    modified :=
      (defaults.entries.filter (fun p => p.2 == action)).foldl
        (fun modified p =>
          if bindings.items.any (fun q => q.2.binding == p.1) then modified else modified + 1)
        bm.2
    action := action
    bindings := bindings
    request_key_input := none }

/-- Modelled from the spec: the per-category factory injected through the
`actions` field by the page modules (their source lies outside this file):
one `ShortcutModel::new` per action of the category. -/
def standardActions (acts : List Action) : Shortcuts → Shortcuts → Slab ShortcutModel :=
  fun defaults shortcuts => ⟨acts.map (fun a => some (ShortcutModel.new defaults shortcuts a))⟩

instance {ε α : Type} [DecidableEq ε] [DecidableEq α] : DecidableEq (Except ε α) := fun a b =>
  match a, b with
  | .ok x, .ok y => decidable_of_iff (x = y) (by simp)
  | .ok _, .error _ => isFalse (by simp)
  | .error _, .ok _ => isFalse (by simp)
  | .error e, .error f => decidable_of_iff (e = f) (by simp)

/-- Modelled from the spec: the configuration store handle (external crate
`cosmic-config`): the results of reading the two fixed keys, plus a counter
of the writes performed on the `custom` key (persisted mutations). -/
structure ConfigStore where
  defaultsRes : Except ConfigError Shortcuts
  customRes : Except ConfigError Shortcuts
  writes : Nat
deriving DecidableEq

/-- Reading the `defaults` key, defaulting to the empty table
(`config.get::<Shortcuts>("defaults").unwrap_or_default()`). -/
def ConfigStore.defaultsGet (c : ConfigStore) : Shortcuts :=
  match c.defaultsRes with
  | .ok s => s
  | .error _ => Shortcuts.empty

/-- The top-level controller: compiled defaults, the pending replace dialog
(target row id, conflicting binding, owning action, its label), the model
slab, the active detail context, the store handle, the custom-category flag
and the injected model factory. -/
structure Model where
  entity : Nat
  defaults : Shortcuts
  replace_dialog : Option (Nat × Binding × Action × String)
  shortcut_models : Slab ShortcutModel
  shortcut_context : Option Nat
  config : ConfigStore
  custom : Bool
  actions : Shortcuts → Shortcuts → Slab ShortcutModel

/-- `Model::shortcuts_config`: the raw custom table; a not-found read is the
empty table, any other failure is logged and also degrades to empty. -/
def Model.shortcuts_config (m : Model) : Shortcuts :=
  match m.config.customRes with
  | .ok shortcuts => shortcuts
  | .error (.getKey _ .notFound) => Shortcuts.empty
  | .error _ => Shortcuts.empty

/-- Whether `shortcuts_config` logged an error on this read (exactly the
catch-all arm of its match). -/
def Model.shortcuts_config_logged (m : Model) : Bool :=
  match m.config.customRes with
  | .ok _ => false
  | .error (.getKey _ .notFound) => false
  | .error _ => true

/-- `Model::shortcuts_system_config`: the merged system view — defaults
(empty when unreadable) extended by the custom entries. -/
def Model.shortcuts_system_config (m : Model) : Shortcuts :=
  let shortcuts := m.config.defaultsGet
  match m.config.customRes with
  | .ok custom => ⟨mergeExtend shortcuts.entries custom.entries⟩
  | .error _ => shortcuts

/-- `Model::shortcuts_config_set`: persist a new custom table (write failures
are logged externally and not observed by this state). -/
def Model.shortcuts_config_set (m : Model) (shortcuts : Shortcuts) : Model :=
  { m with config :=
      { m.config with customRes := .ok shortcuts, writes := m.config.writes + 1 } }

/-- `Model::config_add`: insert (binding → action) into the custom table and
persist it. -/
def Model.config_add (m : Model) (action : Action) (binding : Binding) : Model :=
  let shortcuts := m.shortcuts_config
  m.shortcuts_config_set ⟨insertKey shortcuts.entries binding action⟩

/-- `Model::config_contains`: the owning action of a binding in the merged
system view, with the `Disable` sentinel filtered out. -/
def Model.config_contains (m : Model) (binding : Binding) : Option Action :=
  (getKey m.shortcuts_system_config.entries binding).filter
    (fun action => !(action == Action.Disable))

/-- `Model::config_remove`: retain every custom entry not keyed by the
binding, and persist. -/
def Model.config_remove (m : Model) (binding : Binding) : Model :=
  let shortcuts := m.shortcuts_config
  m.shortcuts_config_set ⟨removeKey shortcuts.entries binding⟩

/-- `Model::on_enter`: reload defaults, rebuild the merged table by
remove-then-insert of every custom entry over it, and rebuild the model slab
through the injected factory. -/
def Model.on_enter (m : Model) : Model :=
  let defaults := m.config.defaultsGet
  let shortcuts :=
    match m.config.customRes with
    | .ok custom => (⟨mergeOnEnter defaults.entries custom.entries⟩ : Shortcuts)
    | .error _ => defaults
  { m with defaults := defaults, shortcut_models := m.actions defaults shortcuts }

/-- `Model::on_clear`: drop all models. -/
def Model.on_clear (m : Model) : Model :=
  { m with shortcut_models := Slab.empty }

/-- Modifier state of the UI framework (external crate `iced`). -/
structure IcedModifiers where
  control : Bool
  alt : Bool
  shift : Bool
  logo : Bool
deriving DecidableEq

/-- The named-key enumeration of the UI framework (external crate `iced`),
exactly the variants matched by the key-symbol mapping table. -/
inductive Named where
  | Alt
  | AltGraph
  | CapsLock
  | Control
  | Fn
  | FnLock
  | NumLock
  | ScrollLock
  | Shift
  | Symbol
  | SymbolLock
  | Meta
  | Hyper
  | Super
  | Enter
  | Tab
  | Space
  | ArrowDown
  | ArrowLeft
  | ArrowRight
  | ArrowUp
  | End
  | Home
  | PageDown
  | PageUp
  | Backspace
  | Clear
  | Copy
  | CrSel
  | Cut
  | Delete
  | EraseEof
  | ExSel
  | Insert
  | Paste
  | Redo
  | Undo
  | Accept
  | Again
  | Attn
  | Cancel
  | ContextMenu
  | Escape
  | Execute
  | Find
  | Help
  | Pause
  | Play
  | Props
  | Select
  | ZoomIn
  | ZoomOut
  | BrightnessDown
  | BrightnessUp
  | Eject
  | LogOff
  | Power
  | PowerOff
  | PrintScreen
  | Hibernate
  | Standby
  | WakeUp
  | AllCandidates
  | Alphanumeric
  | CodeInput
  | Compose
  | Convert
  | FinalMode
  | GroupFirst
  | GroupLast
  | GroupNext
  | GroupPrevious
  | ModeChange
  | NextCandidate
  | NonConvert
  | PreviousCandidate
  | Process
  | SingleCandidate
  | HangulMode
  | HanjaMode
  | JunjaMode
  | Eisu
  | Hankaku
  | Hiragana
  | HiraganaKatakana
  | KanaMode
  | KanjiMode
  | Katakana
  | Romaji
  | Zenkaku
  | ZenkakuHankaku
  | Soft1
  | Soft2
  | Soft3
  | Soft4
  | ChannelDown
  | ChannelUp
  | Close
  | MailForward
  | MailReply
  | MailSend
  | MediaClose
  | MediaFastForward
  | MediaPause
  | MediaPlay
  | MediaPlayPause
  | MediaRecord
  | MediaRewind
  | MediaStop
  | MediaTrackNext
  | MediaTrackPrevious
  | New
  | Open
  | Print
  | Save
  | SpellCheck
  | Key11
  | Key12
  | AudioBalanceLeft
  | AudioBalanceRight
  | AudioBassBoostDown
  | AudioBassBoostToggle
  | AudioBassBoostUp
  | AudioFaderFront
  | AudioFaderRear
  | AudioSurroundModeNext
  | AudioTrebleDown
  | AudioTrebleUp
  | AudioVolumeDown
  | AudioVolumeUp
  | AudioVolumeMute
  | MicrophoneToggle
  | MicrophoneVolumeDown
  | MicrophoneVolumeUp
  | MicrophoneVolumeMute
  | SpeechCorrectionList
  | SpeechInputToggle
  | LaunchApplication1
  | LaunchApplication2
  | LaunchCalendar
  | LaunchContacts
  | LaunchMail
  | LaunchMediaPlayer
  | LaunchMusicPlayer
  | LaunchPhone
  | LaunchScreenSaver
  | LaunchSpreadsheet
  | LaunchWebBrowser
  | LaunchWebCam
  | LaunchWordProcessor
  | BrowserBack
  | BrowserFavorites
  | BrowserForward
  | BrowserHome
  | BrowserRefresh
  | BrowserSearch
  | BrowserStop
  | AppSwitch
  | Call
  | Camera
  | CameraFocus
  | EndCall
  | GoBack
  | GoHome
  | HeadsetHook
  | LastNumberRedial
  | Notification
  | MannerMode
  | VoiceDial
  | TV
  | TV3DMode
  | TVAntennaCable
  | TVAudioDescription
  | TVAudioDescriptionMixDown
  | TVAudioDescriptionMixUp
  | TVContentsMenu
  | TVDataService
  | TVInput
  | TVInputComponent1
  | TVInputComponent2
  | TVInputComposite1
  | TVInputComposite2
  | TVInputHDMI1
  | TVInputHDMI2
  | TVInputHDMI3
  | TVInputHDMI4
  | TVInputVGA1
  | TVMediaContext
  | TVNetwork
  | TVNumberEntry
  | TVPower
  | TVRadioService
  | TVSatellite
  | TVSatelliteBS
  | TVSatelliteCS
  | TVSatelliteToggle
  | TVTerrestrialAnalog
  | TVTerrestrialDigital
  | TVTimer
  | AVRInput
  | AVRPower
  | ColorF0Red
  | ColorF1Green
  | ColorF2Yellow
  | ColorF3Blue
  | ColorF4Grey
  | ColorF5Brown
  | ClosedCaptionToggle
  | Dimmer
  | DisplaySwap
  | DVR
  | Exit
  | FavoriteClear0
  | FavoriteClear1
  | FavoriteClear2
  | FavoriteClear3
  | FavoriteRecall0
  | FavoriteRecall1
  | FavoriteRecall2
  | FavoriteRecall3
  | FavoriteStore0
  | FavoriteStore1
  | FavoriteStore2
  | FavoriteStore3
  | Guide
  | GuideNextDay
  | GuidePreviousDay
  | Info
  | InstantReplay
  | Link
  | ListProgram
  | LiveContent
  | Lock
  | MediaApps
  | MediaAudioTrack
  | MediaLast
  | MediaSkipBackward
  | MediaSkipForward
  | MediaStepBackward
  | MediaStepForward
  | MediaTopMenu
  | NavigateIn
  | NavigateNext
  | NavigateOut
  | NavigatePrevious
  | NextFavoriteChannel
  | NextUserProfile
  | OnDemand
  | Pairing
  | PinPDown
  | PinPMove
  | PinPToggle
  | PinPUp
  | PlaySpeedDown
  | PlaySpeedReset
  | PlaySpeedUp
  | RandomToggle
  | RcLowBattery
  | RecordSpeedNext
  | RfBypass
  | ScanChannelsToggle
  | ScreenModeNext
  | Settings
  | SplitScreenToggle
  | STBInput
  | STBPower
  | Subtitle
  | Teletext
  | VideoModeNext
  | Wink
  | ZoomToggle
  | F1
  | F2
  | F3
  | F4
  | F5
  | F6
  | F7
  | F8
  | F9
  | F10
  | F11
  | F12
  | F13
  | F14
  | F15
  | F16
  | F17
  | F18
  | F19
  | F20
  | F21
  | F22
  | F23
  | F24
  | F25
  | F26
  | F27
  | F28
  | F29
  | F30
  | F31
  | F32
  | F33
  | F34
  | F35

/-- The key-symbol mapping table for named keys: a bit-exact transcription of
the `From<iced::keyboard::Key> for KeysymValue` match arms. -/
def namedKeysym : Named → Option Keysym
  | .Alt => none
  | .AltGraph => some (.named "SUN_AltGraph")
  | .CapsLock => some (.named "Caps_Lock")
  | .Control => none
  | .Fn => some (.named "XF86_Fn")
  | .FnLock => none
  | .NumLock => some (.named "Num_Lock")
  | .ScrollLock => some (.named "Scroll_Lock")
  | .Shift => none
  | .Symbol => none
  | .SymbolLock => none
  | .Meta => none
  | .Hyper => some (.named "Hyper_L")
  | .Super => none
  | .Enter => some (.named "Return")
  | .Tab => some (.named "Tab")
  | .Space => some (.named "space")
  | .ArrowDown => some (.named "Down")
  | .ArrowLeft => some (.named "Left")
  | .ArrowRight => some (.named "Right")
  | .ArrowUp => some (.named "Up")
  | .End => some (.named "End")
  | .Home => some (.named "Home")
  | .PageDown => some (.named "Page_Down")
  | .PageUp => some (.named "Page_Up")
  | .Backspace => some (.named "BackSpace")
  | .Clear => some (.named "Clear")
  | .Copy => some (.named "XF86_Copy")
  | .CrSel => none
  | .Cut => some (.named "XF86_Cut")
  | .Delete => some (.named "Delete")
  | .EraseEof => none
  | .ExSel => none
  | .Insert => some (.named "Insert")
  | .Paste => some (.named "XF86_Paste")
  | .Redo => some (.named "Redo")
  | .Undo => some (.named "Undo")
  | .Accept => none
  | .Again => none
  | .Attn => none
  | .Cancel => some (.named "Cancel")
  | .ContextMenu => some (.named "Menu")
  | .Escape => some (.named "Escape")
  | .Execute => some (.named "Execute")
  | .Find => some (.named "Find")
  | .Help => some (.named "Help")
  | .Pause => some (.named "Pause")
  | .Play => none
  | .Props => some (.named "SUN_Props")
  | .Select => some (.named "Select")
  | .ZoomIn => some (.named "XF86_ZoomIn")
  | .ZoomOut => some (.named "XF86_ZoomOut")
  | .BrightnessDown => some (.named "XF86_MonBrightnessDown")
  | .BrightnessUp => some (.named "XF86_MonBrightnessUp")
  | .Eject => some (.named "XF86_Eject")
  | .LogOff => some (.named "XF86_LogOff")
  | .Power => some (.named "SUN_PowerSwitch")
  | .PowerOff => some (.named "XF86_PowerOff")
  | .PrintScreen => some (.named "SUN_Print_Screen")
  | .Hibernate => some (.named "XF86_Hibernate")
  | .Standby => some (.named "XF86_Standby")
  | .WakeUp => some (.named "XF86_WakeUp")
  | .AllCandidates => some (.named "MultipleCandidate")
  | .Alphanumeric => none
  | .CodeInput => none
  | .Compose => some (.named "Multi_key")
  | .Convert => none
  | .FinalMode => none
  | .GroupFirst => some (.named "ISO_First_Group")
  | .GroupLast => some (.named "ISO_Last_Group")
  | .GroupNext => some (.named "ISO_Next_Group")
  | .GroupPrevious => some (.named "ISO_Prev_Group")
  | .ModeChange => some (.named "Mode_switch")
  | .NextCandidate => none
  | .NonConvert => none
  | .PreviousCandidate => some (.named "PreviousCandidate")
  | .Process => none
  | .SingleCandidate => some (.named "SingleCandidate")
  | .HangulMode => some (.named "Hangul")
  | .HanjaMode => some (.named "Hangul_Hanja")
  | .JunjaMode => some (.named "Hangul_Jeonja")
  | .Eisu => some (.named "Eisu_toggle")
  | .Hankaku => some (.named "Hankaku")
  | .Hiragana => some (.named "Hiragana")
  | .HiraganaKatakana => some (.named "Hiragana_Katakana")
  | .KanaMode => some (.named "Kana_Lock")
  | .KanjiMode => some (.named "Kanji")
  | .Katakana => some (.named "Katakana")
  | .Romaji => some (.named "Romaji")
  | .Zenkaku => some (.named "Zenkaku")
  | .ZenkakuHankaku => some (.named "Zenkaku_Hankaku")
  | .Soft1 => none
  | .Soft2 => none
  | .Soft3 => none
  | .Soft4 => none
  | .ChannelDown => some (.named "XF86_ChannelDown")
  | .ChannelUp => some (.named "XF86_ChannelUp")
  | .Close => none
  | .MailForward => some (.named "XF86_MailForward")
  | .MailReply => some (.named "XF86_Reply")
  | .MailSend => some (.named "XF86_Send")
  | .MediaClose => none
  | .MediaFastForward => some (.named "XF86_AudioForward")
  | .MediaPause => some (.named "XF86_AudioPause")
  | .MediaPlay => none
  | .MediaPlayPause => none
  | .MediaRecord => some (.named "XF86_AudioRecord")
  | .MediaRewind => some (.named "XF86_AudioRewind")
  | .MediaStop => some (.named "XF86_AudioStop")
  | .MediaTrackNext => some (.named "XF86_AudioNext")
  | .MediaTrackPrevious => some (.named "XF86_AudioPrev")
  | .New => some (.named "XF86_New")
  | .Open => some (.named "XF86_Open")
  | .Print => some (.named "Print")
  | .Save => some (.named "XF86_Save")
  | .SpellCheck => some (.named "XF86_Spell")
  | .Key11 => some (.named "XF86_Numeric11")
  | .Key12 => some (.named "XF86_Numeric12")
  | .AudioBalanceLeft => none
  | .AudioBalanceRight => none
  | .AudioBassBoostDown => none
  | .AudioBassBoostToggle => none
  | .AudioBassBoostUp => none
  | .AudioFaderFront => none
  | .AudioFaderRear => none
  | .AudioSurroundModeNext => none
  | .AudioTrebleDown => none
  | .AudioTrebleUp => none
  | .AudioVolumeDown => some (.named "XF86_AudioLowerVolume")
  | .AudioVolumeUp => some (.named "XF86_AudioRaiseVolume")
  | .AudioVolumeMute => some (.named "XF86_AudioMute")
  | .MicrophoneToggle => none
  | .MicrophoneVolumeDown => none
  | .MicrophoneVolumeUp => none
  | .MicrophoneVolumeMute => some (.named "XF86_AudioMicMute")
  | .SpeechCorrectionList => none
  | .SpeechInputToggle => none
  | .LaunchApplication1 => some (.named "XF86_MyComputer")
  | .LaunchApplication2 => some (.named "XF86_Calculator")
  | .LaunchCalendar => some (.named "XF86_Calendar")
  | .LaunchContacts => none
  | .LaunchMail => some (.named "XF86_Mail")
  | .LaunchMediaPlayer => none
  | .LaunchMusicPlayer => some (.named "XF86_AudioMedia")
  | .LaunchPhone => some (.named "XF86_Phone")
  | .LaunchScreenSaver => some (.named "XF86_ScreenSaver")
  | .LaunchSpreadsheet => none
  | .LaunchWebBrowser => some (.named "XF86_WWW")
  | .LaunchWebCam => some (.named "XF86_WebCam")
  | .LaunchWordProcessor => some (.named "XF86_Word")
  | .BrowserBack => some (.named "XF86_Back")
  | .BrowserFavorites => some (.named "XF86_Favorites")
  | .BrowserForward => some (.named "XF86_Forward")
  | .BrowserHome => some (.named "XF86_HomePage")
  | .BrowserRefresh => some (.named "XF86_Refresh")
  | .BrowserSearch => some (.named "XF86_Search")
  | .BrowserStop => some (.named "XF86_Stop")
  | .AppSwitch => none
  | .Call => none
  | .Camera => none
  | .CameraFocus => none
  | .EndCall => none
  | .GoBack => none
  | .GoHome => none
  | .HeadsetHook => none
  | .LastNumberRedial => none
  | .Notification => none
  | .MannerMode => none
  | .VoiceDial => none
  | .TV => none
  | .TV3DMode => none
  | .TVAntennaCable => none
  | .TVAudioDescription => none
  | .TVAudioDescriptionMixDown => none
  | .TVAudioDescriptionMixUp => none
  | .TVContentsMenu => none
  | .TVDataService => none
  | .TVInput => none
  | .TVInputComponent1 => none
  | .TVInputComponent2 => none
  | .TVInputComposite1 => none
  | .TVInputComposite2 => none
  | .TVInputHDMI1 => none
  | .TVInputHDMI2 => none
  | .TVInputHDMI3 => none
  | .TVInputHDMI4 => none
  | .TVInputVGA1 => none
  | .TVMediaContext => none
  | .TVNetwork => none
  | .TVNumberEntry => none
  | .TVPower => none
  | .TVRadioService => none
  | .TVSatellite => none
  | .TVSatelliteBS => none
  | .TVSatelliteCS => none
  | .TVSatelliteToggle => none
  | .TVTerrestrialAnalog => none
  | .TVTerrestrialDigital => none
  | .TVTimer => none
  | .AVRInput => none
  | .AVRPower => none
  | .ColorF0Red => none
  | .ColorF1Green => none
  | .ColorF2Yellow => none
  | .ColorF3Blue => none
  | .ColorF4Grey => none
  | .ColorF5Brown => none
  | .ClosedCaptionToggle => none
  | .Dimmer => none
  | .DisplaySwap => none
  | .DVR => none
  | .Exit => none
  | .FavoriteClear0 => none
  | .FavoriteClear1 => none
  | .FavoriteClear2 => none
  | .FavoriteClear3 => none
  | .FavoriteRecall0 => none
  | .FavoriteRecall1 => none
  | .FavoriteRecall2 => none
  | .FavoriteRecall3 => none
  | .FavoriteStore0 => none
  | .FavoriteStore1 => none
  | .FavoriteStore2 => none
  | .FavoriteStore3 => none
  | .Guide => none
  | .GuideNextDay => none
  | .GuidePreviousDay => none
  | .Info => none
  | .InstantReplay => none
  | .Link => none
  | .ListProgram => none
  | .LiveContent => none
  | .Lock => none
  | .MediaApps => none
  | .MediaAudioTrack => none
  | .MediaLast => none
  | .MediaSkipBackward => none
  | .MediaSkipForward => none
  | .MediaStepBackward => none
  | .MediaStepForward => none
  | .MediaTopMenu => some (.named "XF86_MediaTopMenu")
  | .NavigateIn => none
  | .NavigateNext => none
  | .NavigateOut => none
  | .NavigatePrevious => none
  | .NextFavoriteChannel => none
  | .NextUserProfile => none
  | .OnDemand => none
  | .Pairing => none
  | .PinPDown => none
  | .PinPMove => none
  | .PinPToggle => none
  | .PinPUp => none
  | .PlaySpeedDown => none
  | .PlaySpeedReset => none
  | .PlaySpeedUp => none
  | .RandomToggle => some (.named "XF86_AudioRandomPlay")
  | .RcLowBattery => none
  | .RecordSpeedNext => none
  | .RfBypass => none
  | .ScanChannelsToggle => none
  | .ScreenModeNext => none
  | .Settings => none
  | .SplitScreenToggle => none
  | .STBInput => none
  | .STBPower => none
  | .Subtitle => none
  | .Teletext => none
  | .VideoModeNext => none
  | .Wink => none
  | .ZoomToggle => none
  | .F1 => some (.named "F1")
  | .F2 => some (.named "F2")
  | .F3 => some (.named "F3")
  | .F4 => some (.named "F4")
  | .F5 => some (.named "F5")
  | .F6 => some (.named "F6")
  | .F7 => some (.named "F7")
  | .F8 => some (.named "F8")
  | .F9 => some (.named "F9")
  | .F10 => some (.named "F10")
  | .F11 => some (.named "F11")
  | .F12 => some (.named "F12")
  | .F13 => some (.named "F13")
  | .F14 => some (.named "F14")
  | .F15 => some (.named "F15")
  | .F16 => some (.named "F16")
  | .F17 => some (.named "F17")
  | .F18 => some (.named "F18")
  | .F19 => some (.named "F19")
  | .F20 => some (.named "F20")
  | .F21 => some (.named "F21")
  | .F22 => some (.named "F22")
  | .F23 => some (.named "F23")
  | .F24 => some (.named "F24")
  | .F25 => some (.named "F25")
  | .F26 => some (.named "F26")
  | .F27 => some (.named "F27")
  | .F28 => some (.named "F28")
  | .F29 => some (.named "F29")
  | .F30 => some (.named "F30")
  | .F31 => some (.named "F31")
  | .F32 => some (.named "F32")
  | .F33 => some (.named "F33")
  | .F34 => some (.named "F34")
  | .F35 => some (.named "F35")

/-- A raw key of the UI framework (external crate `iced`): a named key, a
character, or anything else (unidentified or dead keys). -/
inductive Key where
  | named (n : Named)
  | character (s : String)
  | unidentified

/-- The `From<iced::keyboard::Key> for KeysymValue` conversion: named keys go
through the mapping table, a character maps its first char, everything else
has no symbol. -/
def keysymValue : Key → Option Keysym
  | .named n => namedKeysym n
  | .character s => s.data.head?.map Keysym.fromChar
  | .unidentified => none

/-- UI commands returned by the handlers, reduced to the constructors this
module actually produces. -/
inductive Task where
  | none
  | focus (id : Nat)
  | selectAll (id : Nat)
  | openContextDrawer (entity : Nat) (description : String)
  | batch (tasks : List Task)

/-- The message vocabulary of the shortcuts pages. -/
inductive ShortcutMessage where
  | AddKeybinding
  | ApplyReplace
  | CancelReplace
  | DeleteBinding (id : Nat)
  | DeleteShortcut (id : Nat)
  | EditBinding (id : Nat) (enable : Bool)
  | InputBinding (id : Nat) (text : String)
  | SubmitBinding (id : Nat)
  | PressBinding (id : Nat)
  | ResetBindings
  | ShowShortcut (id : Nat) (description : String)
  | KeyPressed (id : Nat) (key : Key) (modifiers : IcedModifiers)

/-- Whether a fallible computation succeeded (`Result::is_ok`). -/
def isOkB {ε α : Type} : Except ε α → Bool
  | .ok _ => true
  | .error _ => false

/-- Localized label of a conflicting action, as computed at both staging
sites: spawned actions use the custom localization. -/
def conflictLabel (action : Action) (binding : Binding) : String :=
  match action with
  | .Spawn _ => localize_custom_action action binding
  | _ => localize_action action

/-- Marker of a `slab` panic (`Slab::remove` on a vacant key). -/
def slabPanic : String := "slab remove: invalid key"

/-- Reuse search of `AddKeybinding`: skip rows whose binding is set or whose
edit buffer parses; the first remaining row is the one reused. -/
def reuseTarget (model : ShortcutModel) : Option (Nat × ShortcutBinding) :=
  model.bindings.items.find?
    (fun p => !(p.2.binding.is_set || isOkB (Binding.from_str p.2.input)))

/-- The fresh empty row inserted by `AddKeybinding` when no row is reused
(widget id modelled by the slab capacity). -/
def newRow (model : ShortcutModel) : ShortcutBinding :=
  { id := model.bindings.entries.length, binding := Binding.default, input := ""
    is_default := false, editing := false }

/-- Handler of `AddKeybinding`: reuse the first row with an unset binding and
an unparseable buffer (clear its buffer, focus it); otherwise insert a fresh
empty row and focus it. -/
def Model.addKeybinding (m : Model) : Model × Task :=
  match m.shortcut_context with
  | none => (m, .none)
  | some short_id =>
    match m.shortcut_models.get? short_id with
    | none => (m, .none)
    | some model =>
      match reuseTarget model with
      | some (k, shortcut) =>
        ({ m with shortcut_models := (m.shortcut_models.set short_id
            { model with bindings := model.bindings.set k { shortcut with input := "" } }) },
         .focus shortcut.id)
      | none =>
        let row := newRow model
        ({ m with shortcut_models := (m.shortcut_models.set short_id
            { model with bindings := (model.bindings.insert row).2 }) },
         .focus row.id)

/-- In-memory scan step of `ApplyReplace`: the first row of this model holding
the conflicting binding is removed, if any. -/
def removeMatchInModel (model : ShortcutModel) (b : Binding) : Option ShortcutModel :=
  match model.bindings.items.find? (fun p => p.2.binding == b) with
  | some (k, _) => some { model with bindings := model.bindings.erase k }
  | none => none

/-- In-memory scan of `ApplyReplace`: over all models in slab order, remove
the first row holding the conflicting binding, then stop. -/
def removeFirstMatching : List (Option ShortcutModel) → Binding → List (Option ShortcutModel)
  | [], _ => []
  | none :: rest, b => none :: removeFirstMatching rest b
  | some model :: rest, b =>
    match removeMatchInModel model b with
    | some model2 => some model2 :: rest
    | none => some model :: removeFirstMatching rest b

/-- Handler of `ApplyReplace`: take the staged dialog; remove the conflicting
binding from the persisted custom table; remove the first in-memory row
holding it; commit the new binding on the target row (remove its previous
binding from custom, add the new entry); reload. -/
def Model.applyReplace (m : Model) : Model :=
  match m.replace_dialog with
  | none => m
  | some (id, new_binding, _, _) =>
    let m0 := { m with replace_dialog := none }
    match m0.shortcut_context with
    | none => m0
    | some short_id =>
      let m1 := m0.config_remove new_binding
      let m2 := { m1 with shortcut_models :=
          (⟨removeFirstMatching m1.shortcut_models.entries new_binding⟩ : Slab ShortcutModel) }
      let m3 :=
        match m2.shortcut_models.get? short_id with
        | none => m2
        | some model =>
          match model.bindings.get? id with
          | none => m2
          | some shortcut =>
            let prev_binding := shortcut.binding
            let model2 := { model with bindings :=
                (model.bindings.set id { shortcut with binding := new_binding, input := "" }) }
            let m2a := { m2 with shortcut_models := m2.shortcut_models.set short_id model2 }
            (m2a.config_remove prev_binding).config_add model2.action new_binding
      m3.on_enter

/-- Handler of `DeleteBinding`: unchecked slab removal of the row; a default
row is suppressed by persisting a Disable entry; otherwise the custom entry
is removed and, when the model became empty, the detail context is cleared;
then reload. -/
def Model.deleteBinding (m : Model) (id : Nat) : Except String Model :=
  match m.shortcut_context with
  | Option.none => .ok m
  | some short_id =>
    match m.shortcut_models.get? short_id with
    | Option.none => .ok m
    | some model =>
      match model.bindings.remove? id with
      | Option.none => .error slabPanic
      | some (shortcut, bindings) =>
        let model2 := { model with bindings := bindings }
        let m1 := { m with shortcut_models := m.shortcut_models.set short_id model2 }
        let m2 :=
          if shortcut.is_default then
            m1.config_add .Disable shortcut.binding
          else
            let m1a := if model2.bindings.isEmpty then
                { m1 with shortcut_context := Option.none }
              else m1
            m1a.config_remove shortcut.binding
        .ok m2.on_enter

/-- Handler of `DeleteShortcut`: unchecked slab removal of the whole model,
then one custom-entry removal followed by a reload per binding of it. -/
def Model.deleteShortcut (m : Model) (id : Nat) : Except String Model :=
  match m.shortcut_models.remove? id with
  | Option.none => .error slabPanic
  | some (model, slab) =>
    let m1 := { m with shortcut_models := slab }
    .ok (model.bindings.items.foldl
      (fun (acc : Model) (p : Nat × ShortcutBinding) => (acc.config_remove p.2.binding).on_enter) m1)

/-- `Model::submit_binding`: parse the row's edit buffer; a parse failure is
logged and leaves everything unchanged; an unset parse clears the buffer; a
conflicting set parse stages the replace dialog; otherwise the binding is
committed (previous custom entry removed, new entry added, reload). -/
def Model.submit_binding (m : Model) (id : Nat) : Model × Task :=
  match m.shortcut_context with
  | Option.none => (m, .none)
  | some short_id =>
    match m.shortcut_models.get? short_id with
    | Option.none => (m, .none)
    | some model =>
      match model.bindings.get? id with
      | Option.none => (m, .none)
      | some shortcut =>
        match Binding.from_str shortcut.input with
        | .error _ => (m, .none)
        | .ok new_binding =>
          if !new_binding.is_set then
            ({ m with shortcut_models := (m.shortcut_models.set short_id
                { model with bindings :=
                    (model.bindings.set id { shortcut with input := "" }) }) },
             .none)
          else
            match m.config_contains new_binding with
            | some action =>
              ({ m with replace_dialog :=
                  (some (id, new_binding, action, conflictLabel action new_binding)) },
               .none)
            | Option.none =>
              let prev_binding := shortcut.binding
              let model2 := { model with bindings := (model.bindings.set id
                  { shortcut with binding := new_binding, input := "", editing := false }) }
              let m1 := { m with shortcut_models := m.shortcut_models.set short_id model2 }
              let m2 := (m1.config_remove prev_binding).config_add model.action new_binding
              (m2.on_enter, .none)

/-- Handler of `EditBinding`: entering edit mode fills the buffer from the
committed binding and selects it; leaving edit mode auto-submits exactly when
the buffer parses. -/
def Model.editBinding (m : Model) (id : Nat) (enable : Bool) : Model × Task :=
  match m.shortcut_context with
  | Option.none => (m, .none)
  | some short_id =>
    match m.shortcut_models.get? short_id with
    | Option.none => (m, .none)
    | some model =>
      match model.bindings.get? id with
      | Option.none => (m, .none)
      | some shortcut =>
        if enable then
          let shortcut2 := { shortcut with editing := true, input := shortcut.binding.toString }
          ({ m with shortcut_models := (m.shortcut_models.set short_id
              { model with bindings := model.bindings.set id shortcut2 }) },
           .selectAll shortcut2.id)
        else
          let shortcut2 := { shortcut with editing := false }
          let m1 := { m with shortcut_models := (m.shortcut_models.set short_id
              { model with bindings := model.bindings.set id shortcut2 }) }
          if isOkB (Binding.from_str shortcut2.input) then
            m1.submit_binding id
          else
            (m1, .none)

/-- Handler of `InputBinding`: mirror the typed text into the row's buffer. -/
def Model.inputBinding (m : Model) (id : Nat) (text : String) : Model :=
  match m.shortcut_context with
  | Option.none => m
  | some short_id =>
    match m.shortcut_models.get? short_id with
    | Option.none => m
    | some model =>
      match model.bindings.get? id with
      | Option.none => m
      | some shortcut =>
        { m with shortcut_models := (m.shortcut_models.set short_id
            { model with bindings := model.bindings.set id { shortcut with input := text } }) }

/-- Handler of `PressBinding`: mark the row as awaiting raw key capture, when
it exists in the active model. -/
def Model.pressBinding (m : Model) (id : Nat) : Model :=
  match m.shortcut_context with
  | Option.none => m
  | some short_id =>
    match m.shortcut_models.get? short_id with
    | Option.none => m
    | some model =>
      if model.bindings.containsKey id then
        { m with shortcut_models := (m.shortcut_models.set short_id
            { model with request_key_input := some id }) }
      else m

/-- Handler of `ResetBindings`: remove the custom entry of every binding of
the active model, then every defaults entry of its action from custom, then
reload. -/
def Model.resetBindings (m : Model) : Model :=
  match m.shortcut_context with
  | Option.none => m
  | some short_id =>
    let m1 :=
      match m.shortcut_models.get? short_id with
      | Option.none => m
      | some model =>
        let m0 := model.bindings.items.foldl
          (fun (acc : Model) (p : Nat × ShortcutBinding) => acc.config_remove p.2.binding) m
        match m0.config.defaultsRes with
        | .ok defaults =>
          defaults.entries.foldl
            (fun (acc : Model) (p : Binding × Action) =>
              if p.2 == model.action then acc.config_remove p.1 else acc) m0
        | .error _ => m0
    m1.on_enter

/-- Handler of `ShowShortcut`: activate the detail context, discard any staged
dialog, open the drawer and focus the first row of the first model. -/
def Model.showShortcut (m : Model) (id : Nat) (description : String) : Model × Task :=
  let m1 := { m with shortcut_context := some id, replace_dialog := Option.none }
  let tasks := [Task.openContextDrawer m1.entity description]
  let tasks :=
    match m1.shortcut_models.get? 0 with
    | some model =>
      match model.bindings.get? 0 with
      | some shortcut => tasks ++ [.focus shortcut.id, .selectAll shortcut.id]
      | Option.none => tasks
    | Option.none => tasks
  (m1, .batch tasks)

/-- The candidate binding formed by `KeyPressed` (`Binding::new`) from the
active modifier flags and the mapped key symbol. -/
def mkBinding (modifiers : IcedModifiers) (keysym : Keysym) : Binding :=
  { modifiers :=
      ({ ctrl := modifiers.control, alt := modifiers.alt,
         shift := modifiers.shift, logo := modifiers.logo } : Modifiers),
    key := some keysym }

/-- Handler of `KeyPressed`: map the raw key to a key symbol; form the
candidate binding from the active modifier flags; mirror it into the row's
buffer and leave listening mode; a conflict stages the replace dialog,
otherwise the binding is committed and the models reloaded. -/
def Model.keyPressed (m : Model) (binding_id : Nat) (pressed_key : Key)
    (modifiers : IcedModifiers) : Model × Task :=
  match m.shortcut_context with
  | Option.none => (m, .none)
  | some short_id =>
    match m.shortcut_models.get? short_id with
    | Option.none => (m, .none)
    | some model =>
      match model.bindings.get? binding_id with
      | Option.none => (m, .none)
      | some shortcut =>
        match keysymValue pressed_key with
        | Option.none => (m, .none)
        | some keysym =>
          let new_binding : Binding := mkBinding modifiers keysym
          let shortcut2 := { shortcut with input := new_binding.toString }
          let m1 := { m with shortcut_models := (m.shortcut_models.set short_id
              { model with bindings := model.bindings.set binding_id shortcut2,
                           request_key_input := Option.none }) }
          match m1.config_contains new_binding with
          | some action =>
            ({ m1 with replace_dialog :=
                (some (binding_id, new_binding, action, conflictLabel action new_binding)) },
             .none)
          | Option.none =>
            match m1.shortcut_models.get? short_id with
            | Option.none => (m1, .none)
            | some model2 =>
              match model2.bindings.get? binding_id with
              | Option.none => (m1, .none)
              | some binding_row =>
                let prev_binding := binding_row.binding
                let row2 := { binding_row with
                  input := new_binding.toString, binding := new_binding, editing := false }
                let m2 := { m1 with shortcut_models := (m1.shortcut_models.set short_id
                    { model2 with bindings := model2.bindings.set binding_id row2 }) }
                let m3 := (m2.config_remove prev_binding).config_add model2.action new_binding
                (m3.on_enter, .none)

/-- `Model::update`: the message dispatcher; a `.error` result marks a panic
of the underlying slab. -/
def Model.update (m : Model) (message : ShortcutMessage) : Except String (Model × Task) :=
  match message with
  | .AddKeybinding => .ok m.addKeybinding
  | .ApplyReplace => .ok (m.applyReplace, .none)
  | .CancelReplace => .ok ({ m with replace_dialog := Option.none }, .none)
  | .DeleteBinding id => (m.deleteBinding id).map (fun m2 => (m2, .none))
  | .DeleteShortcut id => (m.deleteShortcut id).map (fun m2 => (m2, .none))
  | .EditBinding id enable => .ok (m.editBinding id enable)
  | .InputBinding id text => .ok (m.inputBinding id text, .none)
  | .SubmitBinding id => .ok (m.submit_binding id)
  | .PressBinding id => .ok (m.pressBinding id, .none)
  | .ResetBindings => .ok (m.resetBindings, .none)
  | .ShowShortcut id description => .ok (m.showShortcut id description)
  | .KeyPressed id key modifiers => .ok (m.keyPressed id key modifiers)

/-- Claim-side lookup of the layered view: a binding present in custom maps to
custom's action, a binding present only in defaults maps to defaults' action. -/
def overrideLookup (c d : List (Binding × Action)) (b : Binding) : Option Action :=
  match getKey c b with
  | some a => some a
  | none => getKey d b

/-- Number of rows of one model holding a binding. -/
def ShortcutModel.countHolding (model : ShortcutModel) (b : Binding) : Nat :=
  model.bindings.items.countP (fun p => p.2.binding == b)

/-- Number of rows across all models holding a binding. -/
def countRowsHolding (slab : Slab ShortcutModel) (b : Binding) : Nat :=
  (slab.items.map (fun p => p.2.countHolding b)).sum

/-- Example binding Ctrl+Alt+T. -/
def bT : Binding :=
  { modifiers := { ctrl := true, alt := true, shift := false, logo := false },
    key := some (.fromChar 't') }

/-- Example binding Ctrl+B. -/
def bB : Binding :=
  { modifiers := { ctrl := true, alt := false, shift := false, logo := false },
    key := some (.fromChar 'b') }

/-- Example action: a terminal. -/
def aTerm : Action := .System 1

/-- Example action: a browser. -/
def aBrow : Action := .System 2

/-- Example defaults table. -/
def exDefaults : Shortcuts := ⟨[(bT, aTerm), (bB, aBrow)]⟩

/-- Example store: readable defaults, empty custom table. -/
def exStore : ConfigStore :=
  { defaultsRes := .ok exDefaults, customRes := .ok ⟨[]⟩, writes := 0 }

/-- Example controller before its first reload. -/
def exBase : Model :=
  { entity := 0, defaults := Shortcuts.empty, replace_dialog := none,
    shortcut_models := Slab.empty, shortcut_context := some 0, config := exStore,
    custom := false, actions := standardActions [aTerm, aBrow] }

/-- Example controller after `on_enter`: one model per action, defaults
loaded, detail context on the first model. -/
def exM : Model := exBase.on_enter

/-- The first model of `exM` (terminal, one default row Ctrl+Alt+T). -/
def exModelT : ShortcutModel := ShortcutModel.new exDefaults exDefaults aTerm

/-- The single row of `exModelT`: the default binding with an empty buffer. -/
def exRowT : ShortcutBinding :=
  { id := 0, binding := bT, input := "", is_default := true, editing := false }

/-- A row of the terminal model whose buffer holds the typed text `ctrl+b`. -/
def exRow1 : ShortcutBinding :=
  { id := 0, binding := bT, input := "ctrl+b", is_default := true, editing := false }

/-- The terminal model with the typed buffer of `exRow1`. -/
def exModel1 : ShortcutModel := { exModelT with bindings := exModelT.bindings.set 0 exRow1 }

/-- `exM` with the typed buffer staged on the first row. -/
def exM1 : Model := { exM with shortcut_models := exM.shortcut_models.set 0 exModel1 }

/-- A row of the terminal model whose buffer re-types its own binding. -/
def exRow9 : ShortcutBinding :=
  { id := 0, binding := bT, input := "ctrl+alt+t", is_default := true, editing := false }

/-- The terminal model with the self-conflicting buffer of `exRow9`. -/
def exModel9 : ShortcutModel := { exModelT with bindings := exModelT.bindings.set 0 exRow9 }

/-- `exM` with the self-conflicting buffer staged on the first row. -/
def exM9 : Model := { exM with shortcut_models := exM.shortcut_models.set 0 exModel9 }

/-- `exM` with a staged replace dialog: Ctrl+B (owned by the browser action)
is to replace the first row of the terminal model. -/
def exM2 : Model := { exM with replace_dialog := some (0, bB, aBrow, conflictLabel aBrow bB) }

/-- Defaults table of the single-default-row scenario. -/
def exDefaults3 : Shortcuts := ⟨[(bT, aTerm)]⟩

/-- Store of the single-default-row scenario. -/
def exStore3 : ConfigStore :=
  { defaultsRes := .ok exDefaults3, customRes := .ok ⟨[]⟩, writes := 0 }

/-- Controller of the single-default-row scenario, after reload: one model
holding exactly one default row, shown in the detail context. -/
def exM3 : Model :=
  Model.on_enter
    { entity := 0, defaults := Shortcuts.empty, replace_dialog := none,
      shortcut_models := Slab.empty, shortcut_context := some 0, config := exStore3,
      custom := false, actions := standardActions [aTerm] }

/-- Store of the single-custom-row scenario: no defaults, one custom entry. -/
def exStore3c : ConfigStore :=
  { defaultsRes := .ok ⟨[]⟩, customRes := .ok ⟨[(bB, aBrow)]⟩, writes := 0 }

/-- Controller of the single-custom-row scenario, after reload: one model
holding exactly one non-default row, shown in the detail context. -/
def exM3c : Model :=
  Model.on_enter
    { entity := 0, defaults := Shortcuts.empty, replace_dialog := none,
      shortcut_models := Slab.empty, shortcut_context := some 0, config := exStore3c,
      custom := false, actions := standardActions [aBrow] }

/-- An empty unset row, as created by a previous `AddKeybinding`. -/
def exRow4 : ShortcutBinding :=
  { id := 5, binding := Binding.default, input := "", is_default := false, editing := false }

/-- A model holding only the empty unset row `exRow4`. -/
def exModel4 : ShortcutModel :=
  { action := aTerm, bindings := ⟨[some exRow4]⟩, description := "terminal",
    modified := 0, request_key_input := none }

/-- `exM` with the empty-row model as its only model. -/
def exM4 : Model := { exM with shortcut_models := ⟨[some exModel4]⟩ }

/-- `exM` whose custom table read fails with a not-found error. -/
def exM8 : Model :=
  { exM with config := { exStore with customRes := .error (.getKey "custom" .notFound) } }

theorem getKey_insertKey (l : List (Binding × Action)) (b : Binding) (a : Action)
    (b2 : Binding) :
    getKey (insertKey l b a) b2 = if b2 = b then some a else getKey l b2 := by
  induction l with
  | nil =>
    by_cases h : b2 = b
    · simp [insertKey, getKey, h]
    · have hne : (b == b2) = false := by
        simp only [beq_eq_false_iff_ne, ne_eq]
        exact fun hh => h hh.symm
      simp [insertKey, getKey, h, hne]
  | cons p rest ih =>
    cases hpb : (p.1 == b) with
    | true =>
      have hp : p.1 = b := beq_iff_eq.mp hpb
      have hstep : insertKey (p :: rest) b a = (b, a) :: rest := by
        simp only [insertKey, hpb, if_true]
      rw [hstep]
      by_cases h : b2 = b
      · simp [getKey, h]
      · have hne : (b == b2) = false := by
          simp only [beq_eq_false_iff_ne, ne_eq]
          exact fun hh => h hh.symm
        have hne2 : (p.1 == b2) = false := by
          simp only [beq_eq_false_iff_ne, ne_eq]
          exact fun hh => h (hh.symm.trans hp)
        simp [getKey, h, hne, hne2]
    | false =>
      have hstep : insertKey (p :: rest) b a = p :: insertKey rest b a := by
        simp only [insertKey, hpb, Bool.false_eq_true, if_false]
      rw [hstep]
      by_cases h : b2 = b
      · subst h
        have hp2 : ¬p.1 = b2 := by simpa using hpb
        simp [getKey, ih, hp2]
      · cases hq : (p.1 == b2) with
        | true => simp [getKey, hq, h]
        | false => simp [getKey, hq, ih, h]

theorem getKey_removeKey (l : List (Binding × Action)) (b : Binding) (b2 : Binding) :
    getKey (removeKey l b) b2 = if b2 = b then none else getKey l b2 := by
  induction l with
  | nil => simp [removeKey, getKey]
  | cons p rest ih =>
    cases hpb : (p.1 == b) with
    | true =>
      have hp : p.1 = b := beq_iff_eq.mp hpb
      have hstep : removeKey (p :: rest) b = removeKey rest b := by
        simp only [removeKey, List.filter, hpb, Bool.not_true]
      rw [hstep, ih]
      by_cases h : b2 = b
      · simp [h]
      · have hne : (p.1 == b2) = false := by
          simp only [beq_eq_false_iff_ne, ne_eq]
          exact fun hh => h (hh.symm.trans hp)
        simp [getKey, h, hne]
    | false =>
      have hstep : removeKey (p :: rest) b = p :: removeKey rest b := by
        simp only [removeKey, List.filter, hpb, Bool.not_false]
      rw [hstep]
      by_cases h : b2 = b
      · subst h
        have hp2 : ¬p.1 = b2 := by simpa using hpb
        simp [getKey, ih, hp2]
      · cases hq : (p.1 == b2) with
        | true => simp [getKey, hq, h]
        | false => simp [getKey, hq, ih, h]

theorem getKey_eq_none_of_any_false (l : List (Binding × Action)) (b : Binding)
    (h : l.any (fun q => q.1 == b) = false) : getKey l b = none := by
  induction l with
  | nil => simp [getKey]
  | cons p rest ih =>
    simp only [List.any_cons, Bool.or_eq_false_iff] at h
    have h1 : ¬(p.1 = b) := by simpa using h.1
    simp [getKey, h1, ih h.2]

theorem any_insertKey (l : List (Binding × Action)) (b : Binding) (a : Action) (x : Binding) :
    (insertKey l b a).any (fun q => q.1 == x)
      = (l.any (fun q => q.1 == x) || (b == x)) := by
  induction l with
  | nil => simp [insertKey]
  | cons p rest ih =>
    cases hpb : (p.1 == b) with
    | true =>
      have hp : p.1 = b := beq_iff_eq.mp hpb
      simp only [insertKey, hpb, if_true, List.any_cons, hp]
      cases hbx : (b == x) <;> simp [hbx]
    | false =>
      simp only [insertKey, hpb, Bool.false_eq_true, if_false, List.any_cons, ih]
      rw [Bool.or_assoc]

theorem any_removeKey_false (l : List (Binding × Action)) (b : Binding) (x : Binding)
    (h : l.any (fun q => q.1 == x) = false) :
    (removeKey l b).any (fun q => q.1 == x) = false := by
  induction l with
  | nil => simp [removeKey]
  | cons p rest ih =>
    simp only [List.any_cons, Bool.or_eq_false_iff] at h
    by_cases hp : p.1 = b
    · simp only [removeKey, List.filter]
      simp only [hp, beq_self_eq_true, Bool.not_true]
      exact ih h.2
    · have hb : (p.1 == b) = false := by simp [hp]
      simp only [removeKey, List.filter, hb, Bool.not_false]
      simp only [List.any_cons, Bool.or_eq_false_iff]
      exact ⟨h.1, ih h.2⟩

theorem keysNodup_insertKey (l : List (Binding × Action)) (b : Binding) (a : Action)
    (h : keysNodup l = true) : keysNodup (insertKey l b a) = true := by
  induction l with
  | nil => simp [insertKey, keysNodup]
  | cons p rest ih =>
    simp only [keysNodup, Bool.and_eq_true, Bool.not_eq_true'] at h
    by_cases hp : p.1 = b
    · simp only [insertKey, hp, beq_self_eq_true, if_pos]
      simp only [keysNodup, Bool.and_eq_true, Bool.not_eq_true']
      refine ⟨?_, h.2⟩
      rw [← hp]
      exact h.1
    · have hb : (p.1 == b) = false := by simp [hp]
      simp only [insertKey, hb, Bool.false_eq_true, if_false]
      simp only [keysNodup, Bool.and_eq_true, Bool.not_eq_true']
      refine ⟨?_, ih h.2⟩
      rw [any_insertKey]
      simp only [h.1, Bool.false_or]
      simp only [beq_eq_false_iff_ne, ne_eq]
      exact fun hh => hp hh.symm

theorem keysNodup_removeKey (l : List (Binding × Action)) (b : Binding)
    (h : keysNodup l = true) : keysNodup (removeKey l b) = true := by
  induction l with
  | nil => simp [removeKey, keysNodup]
  | cons p rest ih =>
    simp only [keysNodup, Bool.and_eq_true, Bool.not_eq_true'] at h
    by_cases hp : p.1 = b
    · simp only [removeKey, List.filter, hp, beq_self_eq_true, Bool.not_true]
      exact ih h.2
    · have hb : (p.1 == b) = false := by simp [hp]
      simp only [removeKey, List.filter, hb, Bool.not_false]
      simp only [keysNodup, Bool.and_eq_true, Bool.not_eq_true']
      exact ⟨any_removeKey_false rest b p.1 h.1, ih h.2⟩

theorem getKey_step (d : List (Binding × Action)) (k : Binding) (v : Action) (b : Binding) :
    getKey (insertKey (removeKey d k) k v) b = getKey (insertKey d k v) b := by
  rw [getKey_insertKey, getKey_insertKey]
  by_cases h : b = k
  · simp [h]
  · simp [h, getKey_removeKey]

theorem mergeExtend_cons (d : List (Binding × Action)) (p : Binding × Action)
    (c : List (Binding × Action)) :
    mergeExtend d (p :: c) = mergeExtend (insertKey d p.1 p.2) c := rfl

theorem mergeOnEnter_cons (d : List (Binding × Action)) (p : Binding × Action)
    (c : List (Binding × Action)) :
    mergeOnEnter d (p :: c) = mergeOnEnter (insertKey (removeKey d p.1) p.1 p.2) c := rfl

theorem mergeExtend_congr (c : List (Binding × Action)) :
    ∀ d1 d2, (∀ b, getKey d1 b = getKey d2 b) →
      ∀ b, getKey (mergeExtend d1 c) b = getKey (mergeExtend d2 c) b := by
  induction c with
  | nil => intro d1 d2 h b; exact h b
  | cons p rest ih =>
    intro d1 d2 h b
    rw [mergeExtend_cons, mergeExtend_cons]
    refine ih _ _ (fun b2 => ?_) b
    rw [getKey_insertKey, getKey_insertKey]
    by_cases hb : b2 = p.1 <;> simp [hb, h b2]

theorem mergeOnEnter_eq_extend (c : List (Binding × Action)) :
    ∀ d b, getKey (mergeOnEnter d c) b = getKey (mergeExtend d c) b := by
  induction c with
  | nil => intro d b; rfl
  | cons p rest ih =>
    intro d b
    rw [mergeOnEnter_cons, mergeExtend_cons]
    calc getKey (mergeOnEnter (insertKey (removeKey d p.1) p.1 p.2) rest) b
        = getKey (mergeExtend (insertKey (removeKey d p.1) p.1 p.2) rest) b := ih _ b
      _ = getKey (mergeExtend (insertKey d p.1 p.2) rest) b :=
          mergeExtend_congr rest _ _ (getKey_step d p.1 p.2) b

theorem mergeExtend_lookup (c : List (Binding × Action)) :
    ∀ d b, keysNodup c = true →
      getKey (mergeExtend d c) b = overrideLookup c d b := by
  induction c with
  | nil => intro d b _; rfl
  | cons p rest ih =>
    intro d b h
    simp only [keysNodup, Bool.and_eq_true, Bool.not_eq_true'] at h
    rw [mergeExtend_cons, ih _ b h.2]
    unfold overrideLookup
    by_cases hb : b = p.1
    · have hn : getKey rest b = none := by
        apply getKey_eq_none_of_any_false
        rw [hb]
        exact h.1
      rw [hn]
      simp [getKey, getKey_insertKey, hb]
    · have hgb : getKey (p :: rest) b = getKey rest b := by
        have hf : (p.1 == b) = false := by
          simp only [beq_eq_false_iff_ne, ne_eq]
          exact fun hh => hb hh.symm
        simp [getKey, hf]
      rw [hgb]
      cases hres : getKey rest b with
      | some a => simp [hres]
      | none => simp [hres, getKey_insertKey, hb]

theorem mergeOnEnter_lookup (c : List (Binding × Action)) (d : List (Binding × Action))
    (b : Binding) (h : keysNodup c = true) :
    getKey (mergeOnEnter d c) b = overrideLookup c d b := by
  rw [mergeOnEnter_eq_extend, mergeExtend_lookup c d b h]

theorem keysNodup_mergeOnEnter (c : List (Binding × Action)) :
    ∀ d, keysNodup d = true → keysNodup (mergeOnEnter d c) = true := by
  induction c with
  | nil => intro d h; exact h
  | cons p rest ih =>
    intro d h
    rw [mergeOnEnter_cons]
    exact ih _ (keysNodup_insertKey _ _ _ (keysNodup_removeKey _ _ h))

theorem countP_map_own {α β : Type} (l : List α) (f : α → β) (g : β → Bool) :
    (l.map f).countP g = l.countP (fun x => g (f x)) := by
  induction l with
  | nil => rfl
  | cons x rest ih => simp [List.countP_cons, ih]

theorem countP_filter_own {α : Type} (l : List α) (q p : α → Bool) :
    (l.filter q).countP p = l.countP (fun x => p x && q x) := by
  induction l with
  | nil => rfl
  | cons x rest ih =>
    cases hq : q x with
    | true => simp [List.filter_cons, hq, List.countP_cons, ih]
    | false => simp [List.filter_cons, hq, List.countP_cons, ih]

theorem countP_congr_own {α : Type} (l : List α) (p q : α → Bool)
    (h : ∀ x, x ∈ l → p x = q x) : l.countP p = l.countP q := by
  induction l with
  | nil => rfl
  | cons x rest ih =>
    simp only [List.countP_cons, h x (List.mem_cons_self x rest),
      ih (fun y hy => h y (List.mem_cons_of_mem x hy))]

theorem itemsFrom_append {α : Type} (l1 l2 : List (Option α)) :
    ∀ i, Slab.itemsFrom i (l1 ++ l2)
      = Slab.itemsFrom i l1 ++ Slab.itemsFrom (i + l1.length) l2 := by
  induction l1 with
  | nil => intro i; simp [Slab.itemsFrom]
  | cons o rest ih =>
    intro i
    have harith : i + 1 + rest.length = i + (rest.length + 1) := by omega
    cases o with
    | none =>
      simp only [List.cons_append, Slab.itemsFrom, List.length_cons, List.append_eq]
      rw [ih (i + 1), harith]
    | some a =>
      simp only [List.cons_append, Slab.itemsFrom, List.length_cons, List.append_eq]
      rw [ih (i + 1), harith]

theorem firstVacant_none_of_all {α : Type} (l : List (Option α))
    (h : l.all Option.isSome = true) : Slab.firstVacant l = none := by
  induction l with
  | nil => rfl
  | cons o rest ih =>
    cases o with
    | none => simp at h
    | some a =>
      simp only [List.all_cons, Bool.and_eq_true] at h
      simp [Slab.firstVacant, ih h.2]

theorem insert_append_of_all {α : Type} (s : Slab α) (a : α)
    (h : s.entries.all Option.isSome = true) :
    s.insert a = (s.entries.length, ⟨s.entries ++ [some a]⟩) := by
  simp [Slab.insert, firstVacant_none_of_all s.entries h]

theorem all_some_append {α : Type} (l : List (Option α)) (a : α)
    (h : l.all Option.isSome = true) : (l ++ [some a]).all Option.isSome = true := by
  simp only [List.all_append, h, List.all_cons, List.all_nil]
  simp

theorem items_append_some {α : Type} (l : List (Option α)) (a : α) :
    (⟨l ++ [some a]⟩ : Slab α).items = (⟨l⟩ : Slab α).items ++ [(l.length, a)] := by
  simp [Slab.items, itemsFrom_append, Slab.itemsFrom]

theorem newStep_fold (defaults : Shortcuts) (action : Action) :
    ∀ (bs : List Binding) (acc : Slab ShortcutBinding × Nat),
      acc.1.entries.all Option.isSome = true →
      ((bs.foldl (ShortcutModel.newStep defaults action) acc).1.entries.all Option.isSome = true
      ∧ (bs.foldl (ShortcutModel.newStep defaults action) acc).1.items.map (fun p => p.2.binding)
          = acc.1.items.map (fun p => p.2.binding) ++ bs
      ∧ (bs.foldl (ShortcutModel.newStep defaults action) acc).2
          = acc.2 + bs.countP (fun b => !(getKey defaults.entries b == some action))) := by
  intro bs
  induction bs with
  | nil => intro acc h; simp [h]
  | cons b rest ih =>
    intro acc h
    have hstep : ShortcutModel.newStep defaults action acc b
        = (⟨acc.1.entries ++ [some
            { id := acc.1.entries.length, binding := b, input := "",
              is_default := getKey defaults.entries b == some action, editing := false }]⟩,
           if getKey defaults.entries b == some action then acc.2 else acc.2 + 1) := by
      simp [ShortcutModel.newStep, insert_append_of_all acc.1 _ h]
    have hall : (ShortcutModel.newStep defaults action acc b).1.entries.all Option.isSome
        = true := by
      rw [hstep]
      exact all_some_append acc.1.entries _ h
    obtain ⟨ih1, ih2, ih3⟩ := ih (ShortcutModel.newStep defaults action acc b) hall
    refine ⟨by simpa [List.foldl_cons] using ih1, ?_, ?_⟩
    · rw [List.foldl_cons, ih2, hstep]
      rw [items_append_some]
      simp
    · rw [List.foldl_cons, ih3, hstep]
      simp only [List.countP_cons]
      cases hd : (getKey defaults.entries b == some action) with
      | true => simp [hd]
      | false => simp [hd]; omega

theorem new_bindings_map (defaults s : Shortcuts) (action : Action) :
    (ShortcutModel.new defaults s action).bindings.items.map (fun p => p.2.binding)
      = s.shortcuts action := by
  obtain ⟨h1, h2, h3⟩ := newStep_fold defaults action (s.shortcuts action) (Slab.empty, 0) rfl
  simpa [ShortcutModel.new, Slab.empty, Slab.items, Slab.itemsFrom] using h2

theorem beq_some_some {α : Type} [DecidableEq α] (x y : α) :
    ((some x : Option α) == some y) = (x == y) := by
  cases h : (x == y) with
  | true => simp [beq_iff_eq.mp h]
  | false =>
    have hne : ¬x = y := by simpa using h
    simp [hne]

theorem countP_zero_of_key_absent (l : List (Binding × Action)) (B : Binding) (act : Action)
    (h : l.any (fun q => q.1 == B) = false) :
    l.countP (fun p => p.2 == act && p.1 == B) = 0 := by
  induction l with
  | nil => rfl
  | cons p rest ih =>
    simp only [List.any_cons, Bool.or_eq_false_iff] at h
    simp [List.countP_cons, h.1, ih h.2]

theorem countP_key_val (l : List (Binding × Action)) (B : Binding) (act : Action)
    (h : keysNodup l = true) :
    l.countP (fun p => p.2 == act && p.1 == B)
      = if getKey l B == some act then 1 else 0 := by
  induction l with
  | nil => simp [getKey]
  | cons p rest ih =>
    simp only [keysNodup, Bool.and_eq_true, Bool.not_eq_true'] at h
    cases hpb : (p.1 == B) with
    | true =>
      have hp : p.1 = B := beq_iff_eq.mp hpb
      have habs : rest.any (fun q => q.1 == B) = false := by
        rw [← hp]
        exact h.1
      have hz := countP_zero_of_key_absent rest B act habs
      have hg : getKey (p :: rest) B = some p.2 := by simp [getKey, hp]
      rw [hg]
      simp only [List.countP_cons, hz, hpb, Bool.and_true, Nat.zero_add, beq_some_some]
    | false =>
      have hg : getKey (p :: rest) B = getKey rest B := by
        have hp : ¬p.1 = B := by simpa using hpb
        simp [getKey, hp]
      rw [hg]
      simp only [List.countP_cons, hpb, Bool.and_false]
      rw [ih h.2]
      simp

theorem countHolding_new (d s : Shortcuts) (act : Action) (B : Binding) :
    (ShortcutModel.new d s act).countHolding B
      = s.entries.countP (fun p => p.2 == act && p.1 == B) := by
  unfold ShortcutModel.countHolding
  have h1 : (ShortcutModel.new d s act).bindings.items.countP (fun p => p.2.binding == B)
      = ((ShortcutModel.new d s act).bindings.items.map (fun p => p.2.binding)).countP
          (fun b => b == B) := by
    rw [countP_map_own]
  rw [h1, new_bindings_map]
  unfold Shortcuts.shortcuts
  rw [countP_map_own, countP_filter_own]
  exact countP_congr_own _ _ _ (fun p _ => Bool.and_comm _ _)

theorem itemsFrom_map_some {α : Type} (l : List α) :
    ∀ i, (Slab.itemsFrom i (l.map some)).map (fun p => p.2) = l := by
  induction l with
  | nil => intro i; rfl
  | cons a rest ih => intro i; simp [Slab.itemsFrom, ih (i + 1)]

theorem countRows_itemsFrom (models : List ShortcutModel) (B : Binding) :
    ∀ i, ((Slab.itemsFrom i (models.map some)).map (fun p => p.2.countHolding B)).sum
      = (models.map (fun model => model.countHolding B)).sum := by
  induction models with
  | nil => intro i; rfl
  | cons mo rest ih => intro i; simp [Slab.itemsFrom, ih (i + 1)]

theorem countRowsHolding_standard (acts : List Action) (d s : Shortcuts) (B : Binding) :
    countRowsHolding (standardActions acts d s) B
      = (acts.map (fun act => (ShortcutModel.new d s act).countHolding B)).sum := by
  unfold countRowsHolding standardActions Slab.items
  have hmm : (acts.map (fun a => some (ShortcutModel.new d s a)))
      = (acts.map (fun a => ShortcutModel.new d s a)).map some := by
    rw [List.map_map]
    rfl
  rw [hmm, countRows_itemsFrom, List.map_map]
  rfl

theorem map_congr_own {α β : Type} (l : List α) (f g : α → β)
    (h : ∀ x, x ∈ l → f x = g x) : l.map f = l.map g := by
  induction l with
  | nil => rfl
  | cons x rest ih =>
    simp only [List.map_cons, h x (List.mem_cons_self x rest)]
    rw [ih (fun y hy => h y (List.mem_cons_of_mem x hy))]

theorem sum_indicator_zero (acts : List Action) (A1 : Action) (h : A1 ∉ acts) :
    (acts.map (fun act => if A1 = act then 1 else 0)).sum = 0 := by
  induction acts with
  | nil => rfl
  | cons a rest ih =>
    have hne : ¬A1 = a := fun hh => h (hh ▸ List.mem_cons_self a rest)
    simp only [List.map_cons, List.sum_cons, hne, if_false]
    rw [ih (fun hm => h (List.mem_cons_of_mem a hm))]

theorem sum_indicator_one (acts : List Action) (A1 : Action) (hnd : acts.Nodup)
    (hm : A1 ∈ acts) :
    (acts.map (fun act => if A1 = act then 1 else 0)).sum = 1 := by
  induction acts with
  | nil => cases hm
  | cons a rest ih =>
    rw [List.nodup_cons] at hnd
    by_cases h : A1 = a
    · simp only [List.map_cons, List.sum_cons, h, if_pos rfl]
      rw [sum_indicator_zero rest a (hnd.1)]
      simp
    · have hmem : A1 ∈ rest := by
        cases hm with
        | head => exact absurd rfl h
        | tail _ hh => exact hh
      simp only [List.map_cons, List.sum_cons, h, if_false]
      rw [ih hnd.2 hmem]

theorem countRows_merged_one (acts : List Action) (d s : Shortcuts) (B : Binding)
    (A1 : Action) (hnd : keysNodup s.entries = true)
    (hget : getKey s.entries B = some A1) (hacts : acts.Nodup) (hmem : A1 ∈ acts) :
    countRowsHolding (standardActions acts d s) B = 1 := by
  rw [countRowsHolding_standard]
  have hpt : ∀ act, act ∈ acts →
      (ShortcutModel.new d s act).countHolding B = if A1 = act then 1 else 0 := by
    intro act _
    rw [countHolding_new, countP_key_val s.entries B act hnd, hget, beq_some_some]
    cases h : (A1 == act) with
    | true => simp [beq_iff_eq.mp h]
    | false =>
      have : ¬A1 = act := by simpa using h
      simp [this]
  rw [map_congr_own _ _ _ hpt]
  exact sum_indicator_one acts A1 hacts hmem

theorem getD_set_ne_own {α : Type} (v : Option α) :
    ∀ (l : List (Option α)) (i j : Nat), i ≠ j →
      (l.set i v).getD j none = l.getD j none := by
  intro l
  induction l with
  | nil => intro i j h; simp [List.set]
  | cons o rest ih =>
    intro i j h
    cases i with
    | zero =>
      cases j with
      | zero => exact absurd rfl h
      | succ j2 => simp [List.set]
    | succ i2 =>
      cases j with
      | zero => simp [List.set]
      | succ j2 =>
        have h2 : i2 ≠ j2 := fun hh => h (by rw [hh])
        simpa [List.set] using ih i2 j2 h2

theorem itemsFrom_mem_get {α : Type} :
    ∀ (l : List (Option α)) (i k : Nat) (a : α),
      (k, a) ∈ Slab.itemsFrom i l → ∃ j, k = i + j ∧ l.getD j none = some a := by
  intro l
  induction l with
  | nil => intro i k a h; cases h
  | cons o rest ih =>
    intro i k a h
    cases o with
    | none =>
      obtain ⟨j, hk, hj⟩ := ih (i + 1) k a (by simpa [Slab.itemsFrom] using h)
      refine ⟨j + 1, by omega, by simpa using hj⟩
    | some b =>
      simp only [Slab.itemsFrom, List.mem_cons] at h
      cases h with
      | inl hh =>
        refine ⟨0, ?_, ?_⟩
        · have : k = i := congrArg Prod.fst hh
          omega
        · have : a = b := congrArg Prod.snd hh
          simp [this]
      | inr hh =>
        obtain ⟨j, hk, hj⟩ := ih (i + 1) k a hh
        refine ⟨j + 1, by omega, by simpa using hj⟩

theorem items_get {α : Type} (s : Slab α) (k : Nat) (a : α)
    (h : (k, a) ∈ s.items) : s.get? k = some a := by
  obtain ⟨j, hk, hj⟩ := itemsFrom_mem_get s.entries 0 k a h
  have : k = j := by omega
  rw [this] at *
  exact hj

theorem erase_get_ne {α : Type} (s : Slab α) (i j : Nat) (h : i ≠ j) :
    (s.erase i).get? j = s.get? j := by
  unfold Slab.erase Slab.get?
  exact getD_set_ne_own none s.entries i j h

theorem removeMatch_preserves (model : ShortcutModel) (b : Binding) (model2 : ShortcutModel)
    (id : Nat) (row : ShortcutBinding)
    (h : removeMatchInModel model b = some model2)
    (hrow : model.bindings.get? id = some row)
    (hne : (row.binding == b) = false) :
    model2.action = model.action ∧ model2.bindings.get? id = some row := by
  unfold removeMatchInModel at h
  cases hfind : model.bindings.items.find? (fun p => p.2.binding == b) with
  | none => rw [hfind] at h; cases h
  | some ka =>
    rw [hfind] at h
    have hpred : (ka.2.binding == b) = true := by
      have := List.find?_some hfind
      simpa using this
    have hmem : ka ∈ model.bindings.items := List.mem_of_find?_eq_some hfind
    have hget : model.bindings.get? ka.1 = some ka.2 := items_get _ ka.1 ka.2 (by
      cases ka
      exact hmem)
    have hkne : ka.1 ≠ id := by
      intro hh
      rw [hh, hrow] at hget
      have : ka.2 = row := by injection hget with h3; exact h3.symm
      rw [this] at hpred
      rw [hpred] at hne
      cases hne
    cases ka with
    | mk k v =>
      have h2 : model2 = { model with bindings := model.bindings.erase k } := by
        injection h with h3
        exact h3.symm
      subst h2
      exact ⟨rfl, by rw [show ({ model with bindings := model.bindings.erase k }
          : ShortcutModel).bindings = model.bindings.erase k from rfl,
        erase_get_ne model.bindings k id hkne]; exact hrow⟩

theorem removeFirstMatching_preserves :
    ∀ (l : List (Option ShortcutModel)) (b : Binding) (sid id : Nat)
      (model : ShortcutModel) (row : ShortcutBinding),
      (⟨l⟩ : Slab ShortcutModel).get? sid = some model →
      model.bindings.get? id = some row →
      (row.binding == b) = false →
      ∃ model2, (⟨removeFirstMatching l b⟩ : Slab ShortcutModel).get? sid = some model2
        ∧ model2.action = model.action ∧ model2.bindings.get? id = some row := by
  intro l
  induction l with
  | nil =>
    intro b sid id model row hm
    simp [Slab.get?] at hm
  | cons o rest ih =>
    intro b sid id model row hm hr hne
    cases o with
    | none =>
      cases sid with
      | zero => simp [Slab.get?] at hm
      | succ sid2 =>
        have hm2 : (⟨rest⟩ : Slab ShortcutModel).get? sid2 = some model := by
          simpa [Slab.get?] using hm
        obtain ⟨model2, h1, h2, h3⟩ := ih b sid2 id model row hm2 hr hne
        exact ⟨model2, by simpa [removeFirstMatching, Slab.get?] using h1, h2, h3⟩
    | some mo =>
      cases hrm : removeMatchInModel mo b with
      | some mo2 =>
        cases sid with
        | zero =>
          have hmo : mo = model := by simpa [Slab.get?] using hm
          subst hmo
          obtain ⟨h2, h3⟩ := removeMatch_preserves mo b mo2 id row hrm hr hne
          exact ⟨mo2, by simp [removeFirstMatching, hrm, Slab.get?], h2, h3⟩
        | succ sid2 =>
          refine ⟨model, ?_, rfl, hr⟩
          simp only [removeFirstMatching, hrm]
          simpa [Slab.get?] using hm
      | none =>
        cases sid with
        | zero =>
          have hmo : mo = model := by simpa [Slab.get?] using hm
          subst hmo
          exact ⟨mo, by simp [removeFirstMatching, hrm, Slab.get?], rfl, hr⟩
        | succ sid2 =>
          have hm2 : (⟨rest⟩ : Slab ShortcutModel).get? sid2 = some model := by
            simpa [Slab.get?] using hm
          obtain ⟨model2, h1, h2, h3⟩ := ih b sid2 id model row hm2 hr hne
          exact ⟨model2, by simpa [removeFirstMatching, hrm, Slab.get?] using h1, h2, h3⟩

theorem config_remove_config (m : Model) (c : Shortcuts) (b : Binding)
    (h : m.config.customRes = .ok c) :
    (m.config_remove b).config
      = { m.config with customRes := Except.ok ⟨removeKey c.entries b⟩, writes := m.config.writes + 1 } := by
  simp [Model.config_remove, Model.shortcuts_config, Model.shortcuts_config_set, h]

theorem config_add_config (m : Model) (c : Shortcuts) (action : Action) (b : Binding)
    (h : m.config.customRes = .ok c) :
    (m.config_add action b).config
      = { m.config with customRes := Except.ok ⟨insertKey c.entries b action⟩, writes := m.config.writes + 1 } := by
  simp [Model.config_add, Model.shortcuts_config, Model.shortcuts_config_set, h]

theorem config_remove_context (m : Model) (b : Binding) :
    (m.config_remove b).shortcut_context = m.shortcut_context := rfl

theorem config_add_context (m : Model) (a : Action) (b : Binding) :
    (m.config_add a b).shortcut_context = m.shortcut_context := rfl

theorem config_remove_actions (m : Model) (b : Binding) :
    (m.config_remove b).actions = m.actions := rfl

theorem config_add_actions (m : Model) (a : Action) (b : Binding) :
    (m.config_add a b).actions = m.actions := rfl

theorem on_enter_config (m : Model) : m.on_enter.config = m.config := rfl

theorem on_enter_context (m : Model) :
    m.on_enter.shortcut_context = m.shortcut_context := rfl

theorem on_enter_models (m : Model) (d c : Shortcuts)
    (hd : m.config.defaultsRes = .ok d) (hc : m.config.customRes = .ok c) :
    m.on_enter.shortcut_models = m.actions d ⟨mergeOnEnter d.entries c.entries⟩ := by
  simp [Model.on_enter, ConfigStore.defaultsGet, hd, hc]

theorem system_config_eq (m : Model) (c : Shortcuts) (hc : m.config.customRes = .ok c) :
    m.shortcuts_system_config
      = ⟨mergeExtend m.config.defaultsGet.entries c.entries⟩ := by
  simp [Model.shortcuts_system_config, hc]

theorem config_contains_none_of_disable (m : Model) (c : Shortcuts) (b : Binding)
    (hc : m.config.customRes = .ok c) (hnd : keysNodup c.entries = true)
    (hget : getKey c.entries b = some .Disable) :
    m.config_contains b = none := by
  unfold Model.config_contains
  rw [system_config_eq m c hc]
  have hlook : getKey (mergeExtend m.config.defaultsGet.entries c.entries) b
      = overrideLookup c.entries m.config.defaultsGet.entries b :=
    mergeExtend_lookup c.entries _ b hnd
  rw [show (⟨mergeExtend m.config.defaultsGet.entries c.entries⟩ : Shortcuts).entries
      = mergeExtend m.config.defaultsGet.entries c.entries from rfl, hlook]
  unfold overrideLookup
  rw [hget]
  simp [Option.filter]

theorem submit_stages (m : Model) (short_id id : Nat) (model : ShortcutModel)
    (shortcut : ShortcutBinding) (B : Binding) (A2 : Action)
    (hctx : m.shortcut_context = some short_id)
    (hmodel : m.shortcut_models.get? short_id = some model)
    (hrow : model.bindings.get? id = some shortcut)
    (hparse : Binding.from_str shortcut.input = .ok B)
    (hset : B.is_set = true)
    (hconf : m.config_contains B = some A2) :
    m.submit_binding id
      = ({ m with replace_dialog := some (id, B, A2, conflictLabel A2 B) }, .none) := by
  simp [Model.submit_binding, hctx, hmodel, hrow, hparse, hset, hconf]

theorem keyPressed_stages (m : Model) (short_id id : Nat) (model : ShortcutModel)
    (shortcut : ShortcutBinding) (key : Key) (mods : IcedModifiers) (k : Keysym)
    (A2 : Action)
    (hctx : m.shortcut_context = some short_id)
    (hmodel : m.shortcut_models.get? short_id = some model)
    (hrow : model.bindings.get? id = some shortcut)
    (hkey : keysymValue key = some k)
    (hconf : m.config_contains (mkBinding mods k) = some A2) :
    m.keyPressed id key mods
      = ({ m with
            shortcut_models := (m.shortcut_models.set short_id
              { model with
                bindings := (model.bindings.set id
                  { shortcut with input := (mkBinding mods k).toString }),
                request_key_input := none }),
            replace_dialog := some (id, mkBinding mods k, A2,
              conflictLabel A2 (mkBinding mods k)) },
         .none) := by
  have hconf2 : ({ m with
      shortcut_context := some short_id,
      shortcut_models := (m.shortcut_models.set short_id
        { model with
          bindings := (model.bindings.set id
            { shortcut with input := (mkBinding mods k).toString }),
          request_key_input := none }) } : Model).config_contains (mkBinding mods k)
      = some A2 := hconf
  unfold Model.keyPressed
  rw [hctx]
  dsimp only
  rw [hmodel]
  dsimp only
  rw [hrow]
  dsimp only
  rw [hkey]
  dsimp only
  rw [hconf2]

theorem config_contains_congr (m1 m2 : Model) (b : Binding) (h : m1.config = m2.config) :
    m1.config_contains b = m2.config_contains b := by
  unfold Model.config_contains Model.shortcuts_system_config ConfigStore.defaultsGet
  rw [h]

theorem getKey_of_mem_nodup (l : List (Binding × Action)) (B : Binding) (a : Action)
    (hnd : keysNodup l = true) (hmem : (B, a) ∈ l) : getKey l B = some a := by
  induction l with
  | nil => cases hmem
  | cons p rest ih =>
    simp only [keysNodup, Bool.and_eq_true, Bool.not_eq_true'] at hnd
    cases hmem with
    | head =>
      simp [getKey]
    | tail _ hmem2 =>
      cases hpb : (p.1 == B) with
      | true =>
        have hp : p.1 = B := beq_iff_eq.mp hpb
        have : rest.any (fun q => q.1 == p.1) = true := by
          apply List.any_eq_true.mpr
          exact ⟨(B, a), hmem2, by simp [hp]⟩
        rw [this] at hnd
        cases hnd.1
      | false =>
        simp only [getKey, hpb, Bool.false_eq_true, if_false]
        exact ih hnd.2 hmem2

/-- Claim C3 counterexample: in a state whose active model holds exactly one
row, which is a system default, `DeleteBinding` on that row empties the model
yet leaves the detail context set — the claim asserts it is cleared
regardless of the default flag. -/
theorem C3_counterexample :
    exM3.shortcut_context = some 0
    ∧ (exM3.shortcut_models.get? 0).map (fun model => model.bindings.items.length) = some 1
    ∧ ((exM3.shortcut_models.get? 0).bind (fun model => model.bindings.get? 0)).map
        (fun row => row.is_default) = some true
    ∧ (exM3.update (.DeleteBinding 0)).toOption.map (fun p => p.1.shortcut_context)
        = some (some 0) :=
  ⟨rfl, rfl, rfl, rfl⟩

/-- Claim C3 (amended): `DeleteBinding` on a live row of the active model
clears the detail context exactly when the removed row is not a system
default and the model is left without bindings; deleting a default row (which
persists a Disable entry instead) leaves the context in place. -/
theorem C3_context_cleared_only_for_custom (m : Model) (short_id id : Nat)
    (model : ShortcutModel) (shortcut : ShortcutBinding) (rest : Slab ShortcutBinding)
    (hctx : m.shortcut_context = some short_id)
    (hmodel : m.shortcut_models.get? short_id = some model)
    (hrem : model.bindings.remove? id = some (shortcut, rest)) :
    (m.update (.DeleteBinding id)).toOption.map (fun p => p.1.shortcut_context)
      = some (if shortcut.is_default then m.shortcut_context
              else if rest.isEmpty then none else m.shortcut_context) := by
  unfold Model.update Model.deleteBinding
  rw [hctx]
  dsimp only
  rw [hmodel]
  dsimp only
  rw [hrem]
  dsimp only
  cases hdef : shortcut.is_default with
  | true => rfl
  | false =>
    cases hie : rest.isEmpty with
    | true => rfl
    | false => rfl

/-- Claim C3 witness: deleting the single custom (non-default) row of the
active model clears the detail context. -/
theorem C3_amended_witness :
    (exM3c.update (.DeleteBinding 0)).toOption.map (fun p => p.1.shortcut_context)
      = some none :=
  (C3_context_cleared_only_for_custom exM3c 0 0
    (ShortcutModel.new ⟨[]⟩ ⟨[(bB, aBrow)]⟩ aBrow)
    { id := 0, binding := bB, input := "", is_default := false, editing := false }
    ((ShortcutModel.new ⟨[]⟩ ⟨[(bB, aBrow)]⟩ aBrow).bindings.erase 0)
    rfl rfl rfl).trans rfl

/-- Claim C4: `AddKeybinding` on the active model reuses the first row whose
binding is unset and whose edit buffer does not parse — clearing that row's
buffer and focusing it, with no insertion — and inserts a fresh empty focused
row exactly when no such row exists. -/
theorem C4_add_keybinding_reuses_empty_row (m : Model) (short_id : Nat)
    (model : ShortcutModel)
    (hctx : m.shortcut_context = some short_id)
    (hmodel : m.shortcut_models.get? short_id = some model) :
    (∀ k row, reuseTarget model = some (k, row) →
      m.update .AddKeybinding
        = .ok ({ m with shortcut_models := (m.shortcut_models.set short_id
            { model with bindings := (model.bindings.set k { row with input := "" }) }) },
          .focus row.id))
    ∧ (reuseTarget model = none →
      m.update .AddKeybinding
        = .ok ({ m with shortcut_models := (m.shortcut_models.set short_id
            { model with bindings := (model.bindings.insert (newRow model)).2 }) },
          .focus (newRow model).id)) := by
  constructor
  · intro k row hfind
    unfold Model.update Model.addKeybinding
    rw [hctx]
    dsimp only
    rw [hmodel]
    dsimp only
    rw [hfind]
  · intro hfind
    unfold Model.update Model.addKeybinding
    rw [hctx]
    dsimp only
    rw [hmodel]
    dsimp only
    rw [hfind]

/-- Claim C4 witness: with one existing unset empty row, `AddKeybinding`
reuses it (row count unchanged, its buffer cleared, focus on its widget). -/
theorem C4_witness :
    exM4.update .AddKeybinding
      = .ok ({ exM4 with shortcut_models := (exM4.shortcut_models.set 0
          { exModel4 with bindings := (exModel4.bindings.set 0 { exRow4 with input := "" }) }) },
        .focus 5) :=
  (C4_add_keybinding_reuses_empty_row exM4 0 exModel4 rfl rfl).1 0 exRow4 rfl

/-- Claim C8: reading the custom table never propagates a storage error — a
not-found read degrades to the empty table silently, any other failure is
logged and degrades to the empty table, and a successful read is returned
as-is. -/
theorem C8_custom_read_never_fails (m : Model) :
    (∀ s, m.config.customRes = .ok s →
      m.shortcuts_config = s ∧ m.shortcuts_config_logged = false)
    ∧ (∀ p, m.config.customRes = .error (.getKey p .notFound) →
      m.shortcuts_config = Shortcuts.empty ∧ m.shortcuts_config_logged = false)
    ∧ (∀ e, m.config.customRes = .error e → (∀ p, e ≠ .getKey p .notFound) →
      m.shortcuts_config = Shortcuts.empty ∧ m.shortcuts_config_logged = true) := by
  refine ⟨?_, ?_, ?_⟩
  · intro s h
    constructor <;> simp [Model.shortcuts_config, Model.shortcuts_config_logged, h]
  · intro p h
    constructor <;> simp [Model.shortcuts_config, Model.shortcuts_config_logged, h]
  · intro e h hne
    cases e with
    | getKey p kind =>
      cases kind with
      | notFound => exact absurd rfl (hne p)
      | permissionDenied =>
        constructor <;> simp [Model.shortcuts_config, Model.shortcuts_config_logged, h]
      | otherKind n =>
        constructor <;> simp [Model.shortcuts_config, Model.shortcuts_config_logged, h]
    | setKey p =>
      constructor <;> simp [Model.shortcuts_config, Model.shortcuts_config_logged, h]
    | parseError msg =>
      constructor <;> simp [Model.shortcuts_config, Model.shortcuts_config_logged, h]

/-- Claim C8 witness: a not-found read of the custom table yields the empty
table without logging. -/
theorem C8_witness :
    exM8.shortcuts_config = Shortcuts.empty ∧ exM8.shortcuts_config_logged = false :=
  (C8_custom_read_never_fails exM8).2.1 "custom" rfl

/-- Claim C10 counterexample: the claim's side condition — that every handler
other than `DeleteShortcut` treats a missing id as a no-op — fails:
`DeleteBinding` on a stale row id, with a live detail context, also performs
an unchecked slab removal and panics. -/
theorem C10_counterexample :
    exM.shortcut_context = some 0
    ∧ (exM.shortcut_models.get? 0).map (fun model => model.bindings.get? 9) = some none
    ∧ exM.update (.DeleteBinding 9) = .error slabPanic :=
  ⟨rfl, rfl, rfl⟩

/-- Claim C10 (amended): `DeleteShortcut` on an id that is not a live index
of the model slab panics, through the unchecked slab removal; `DeleteBinding`
likewise panics on a stale row id when a detail context is active, while the
remaining handlers look ids up fallibly. -/
theorem C10_stale_ids_panic (m : Model) :
    (∀ id, m.shortcut_models.get? id = none →
      m.update (.DeleteShortcut id) = .error slabPanic)
    ∧ (∀ short_id id model, m.shortcut_context = some short_id →
        m.shortcut_models.get? short_id = some model →
        model.bindings.get? id = none →
        m.update (.DeleteBinding id) = .error slabPanic) := by
  constructor
  · intro id h
    unfold Model.update Model.deleteShortcut Slab.remove?
    dsimp only
    rw [h]
    rfl
  · intro short_id id model hctx hmodel hrow
    unfold Model.update Model.deleteBinding
    rw [hctx]
    dsimp only
    rw [hmodel]
    dsimp only
    unfold Slab.remove?
    rw [hrow]
    rfl

/-- Claim C10 witness: a `DeleteShortcut` on a stale model id panics. -/
theorem C10_witness : exM.update (.DeleteShortcut 9) = .error slabPanic :=
  (C10_stale_ids_panic exM).1 9 rfl

/-- Claim C1: a candidate binding B — arriving through typed submit or raw key
capture — that the merged defaults+custom view maps to a non-Disable action A2
different from the row's own action makes the update stage the replace
confirmation: `replace_dialog` becomes the row id, B, A2 and its localized
label, and the persisted custom table receives no write (the configuration
store state, including the write counter, is unchanged).  Each path carries
only its own premise: the typed-submit conclusion assumes the row's buffer
parses to B, while the key-capture conclusion assumes only that the raw key
maps to a symbol forming B — the buffer's content is irrelevant there, as in
the source, which overwrites it before the conflict check. -/
theorem C1_conflict_stages_dialog (m : Model) (short_id id : Nat)
    (model : ShortcutModel) (shortcut : ShortcutBinding) (B : Binding) (A2 : Action)
    (hctx : m.shortcut_context = some short_id)
    (hmodel : m.shortcut_models.get? short_id = some model)
    (hrow : model.bindings.get? id = some shortcut)
    (hset : B.is_set = true)
    (hconf : m.config_contains B = some A2)
    (hne : A2 ≠ model.action) :
    (Binding.from_str shortcut.input = .ok B →
      m.update (.SubmitBinding id)
        = .ok ({ m with replace_dialog := some (id, B, A2, conflictLabel A2 B) }, .none))
    ∧ (∀ (key : Key) (mods : IcedModifiers) (k : Keysym),
        keysymValue key = some k → B = mkBinding mods k →
        m.update (.KeyPressed id key mods)
          = .ok ({ m with
              shortcut_models := (m.shortcut_models.set short_id
                { model with
                  bindings := (model.bindings.set id { shortcut with input := B.toString }),
                  request_key_input := none }),
              replace_dialog := some (id, B, A2, conflictLabel A2 B) }, .none))
    ∧ ({ m with replace_dialog := some (id, B, A2, conflictLabel A2 B) } : Model).config
        = m.config
    ∧ ({ m with replace_dialog := some (id, B, A2, conflictLabel A2 B) }
        : Model).config.writes = m.config.writes := by
  refine ⟨?_, ?_, rfl, rfl⟩
  · intro hparse
    show Except.ok (m.submit_binding id) = _
    rw [submit_stages m short_id id model shortcut _ A2 hctx hmodel hrow hparse hset hconf]
  · intro key mods k hkey hB
    subst hB
    show Except.ok (m.keyPressed id key mods) = _
    rw [keyPressed_stages m short_id id model shortcut key mods k A2
      hctx hmodel hrow hkey hconf]

/-- Claim C1 witness: typing `ctrl+b` on the terminal row stages the replace
dialog against the browser action, and so does capturing the raw key `b` with
Ctrl held on the same row while its buffer is still empty — the ordinary
key-capture state. -/
theorem C1_witness :
    exM1.update (.SubmitBinding 0)
        = .ok ({ exM1 with replace_dialog := some (0, bB, aBrow, conflictLabel aBrow bB) },
          .none)
    ∧ exM.update (.KeyPressed 0 (.character "b") ⟨true, false, false, false⟩)
        = .ok ({ exM with
            shortcut_models := (exM.shortcut_models.set 0
              { exModelT with
                bindings := (exModelT.bindings.set 0 { exRowT with input := bB.toString }),
                request_key_input := none }),
            replace_dialog := some (0, bB, aBrow, conflictLabel aBrow bB) }, .none) :=
  ⟨(C1_conflict_stages_dialog exM1 0 0 exModel1 exRow1 bB aBrow
      rfl rfl rfl rfl rfl (by decide)).1 rfl,
   (C1_conflict_stages_dialog exM 0 0 exModelT exRowT bB aBrow
      rfl rfl rfl rfl rfl (by decide)).2.1
      (.character "b") ⟨true, false, false, false⟩ (.fromChar 'b') rfl rfl⟩

/-- Claim C9: the conflict check never compares the owning action returned by
`config_contains` with the target row's own action: a candidate binding B that
the merged view maps to the row's own action (a non-Disable self-conflict,
e.g. re-submitting the row's current default binding) still stages the
replace dialog instead of committing — on the typed-submit path when the
buffer parses to B, and on the key-capture path whenever the raw key maps to
a symbol forming B, regardless of the buffer's content. -/
theorem C9_self_conflict_still_stages (m : Model) (short_id id : Nat)
    (model : ShortcutModel) (shortcut : ShortcutBinding) (B : Binding)
    (hctx : m.shortcut_context = some short_id)
    (hmodel : m.shortcut_models.get? short_id = some model)
    (hrow : model.bindings.get? id = some shortcut)
    (hset : B.is_set = true)
    (hconf : m.config_contains B = some model.action) :
    (Binding.from_str shortcut.input = .ok B →
      m.update (.SubmitBinding id)
        = .ok ({ m with replace_dialog :=
            (some (id, B, model.action, conflictLabel model.action B)) }, .none))
    ∧ (∀ (key : Key) (mods : IcedModifiers) (k : Keysym),
        keysymValue key = some k → B = mkBinding mods k →
        m.update (.KeyPressed id key mods)
          = .ok ({ m with
              shortcut_models := (m.shortcut_models.set short_id
                { model with
                  bindings := (model.bindings.set id { shortcut with input := B.toString }),
                  request_key_input := none }),
              replace_dialog := some (id, B, model.action,
                conflictLabel model.action B) },
            .none)) := by
  constructor
  · intro hparse
    show Except.ok (m.submit_binding id) = _
    rw [submit_stages m short_id id model shortcut _ model.action
      hctx hmodel hrow hparse hset hconf]
  · intro key mods k hkey hB
    subst hB
    show Except.ok (m.keyPressed id key mods) = _
    rw [keyPressed_stages m short_id id model shortcut key mods k model.action
      hctx hmodel hrow hkey hconf]

/-- Claim C9 witness: re-typing the terminal row's own default binding
`ctrl+alt+t` stages a replace dialog against the terminal action itself, and
so does capturing the raw key `t` with Ctrl+Alt held on the same row while
its buffer is still empty. -/
theorem C9_witness :
    exM9.update (.SubmitBinding 0)
        = .ok ({ exM9 with replace_dialog :=
            (some (0, bT, exModel9.action, conflictLabel exModel9.action bT)) }, .none)
    ∧ exM.update (.KeyPressed 0 (.character "t") ⟨true, true, false, false⟩)
        = .ok ({ exM with
            shortcut_models := (exM.shortcut_models.set 0
              { exModelT with
                bindings := (exModelT.bindings.set 0 { exRowT with input := bT.toString }),
                request_key_input := none }),
            replace_dialog := some (0, bT, exModelT.action,
              conflictLabel exModelT.action bT) }, .none) :=
  ⟨(C9_self_conflict_still_stages exM9 0 0 exModel9 exRow9 bT
      rfl rfl rfl rfl rfl).1 rfl,
   (C9_self_conflict_still_stages exM 0 0 exModelT exRowT bT
      rfl rfl rfl rfl rfl).2
      (.character "t") ⟨true, true, false, false⟩ (.fromChar 't') rfl rfl⟩

/-- Claim C5: deleting a row whose `is_default` flag is set persists the entry
(binding → Disable) in the custom table, and `config_contains` thereafter
returns `none` for that binding, because Disable-mapped entries are filtered
out of the merged lookup. -/
theorem C5_delete_default_persists_disable (m : Model) (short_id id : Nat)
    (model : ShortcutModel) (shortcut : ShortcutBinding) (rest : Slab ShortcutBinding)
    (c : Shortcuts)
    (hctx : m.shortcut_context = some short_id)
    (hmodel : m.shortcut_models.get? short_id = some model)
    (hrem : model.bindings.remove? id = some (shortcut, rest))
    (hdef : shortcut.is_default = true)
    (hc : m.config.customRes = .ok c)
    (hnd : keysNodup c.entries = true) :
    (m.update (.DeleteBinding id)).toOption.map (fun p => p.1.config.customRes)
        = some (.ok ⟨insertKey c.entries shortcut.binding .Disable⟩)
    ∧ getKey (insertKey c.entries shortcut.binding .Disable) shortcut.binding
        = some .Disable
    ∧ (m.update (.DeleteBinding id)).toOption.map
        (fun p => p.1.config_contains shortcut.binding) = some none := by
  have hstep : m.update (.DeleteBinding id)
      = .ok ((({ m with
                  shortcut_context := some short_id,
                  shortcut_models := (m.shortcut_models.set short_id
                    { model with bindings := rest }) } : Model).config_add
              .Disable shortcut.binding).on_enter, .none) := by
    unfold Model.update Model.deleteBinding
    rw [hctx]
    dsimp only
    rw [hmodel]
    dsimp only
    rw [hrem]
    dsimp only
    rw [hdef]
    rfl
  have hcfg : (({ m with
          shortcut_context := some short_id,
          shortcut_models := (m.shortcut_models.set short_id
            { model with bindings := rest }) } : Model).config_add
          .Disable shortcut.binding).config
      = { m.config with
          customRes := Except.ok ⟨insertKey c.entries shortcut.binding .Disable⟩,
          writes := m.config.writes + 1 } :=
    config_add_config _ c .Disable shortcut.binding hc
  have hget : getKey (insertKey c.entries shortcut.binding .Disable) shortcut.binding
      = some .Disable := by
    rw [getKey_insertKey]
    simp
  refine ⟨?_, hget, ?_⟩
  · rw [hstep]
    simp only [Except.toOption, Option.map, on_enter_config]
    rw [hcfg]
  · rw [hstep]
    simp only [Except.toOption, Option.map]
    have hcc : ((({ m with
            shortcut_context := some short_id,
            shortcut_models := (m.shortcut_models.set short_id
              { model with bindings := rest }) } : Model).config_add
            .Disable shortcut.binding).on_enter).config_contains shortcut.binding
        = none := by
      apply config_contains_none_of_disable _
        (⟨insertKey c.entries shortcut.binding .Disable⟩ : Shortcuts)
      · rw [on_enter_config, hcfg]
      · exact keysNodup_insertKey c.entries shortcut.binding .Disable hnd
      · exact hget
    rw [hcc]

/-- Claim C5 witness: deleting the single default row Ctrl+Alt+T persists
(Ctrl+Alt+T → Disable) in custom, and `config_contains` then returns none
for it. -/
theorem C5_witness :
    (exM3.update (.DeleteBinding 0)).toOption.map (fun p => p.1.config.customRes)
        = some (.ok ⟨[(bT, .Disable)]⟩)
    ∧ (exM3.update (.DeleteBinding 0)).toOption.map
        (fun p => p.1.config_contains bT) = some none := by
  have h := C5_delete_default_persists_disable exM3 0 0
    (ShortcutModel.new exDefaults3 exDefaults3 aTerm)
    { id := 0, binding := bT, input := "", is_default := true, editing := false }
    ((ShortcutModel.new exDefaults3 exDefaults3 aTerm).bindings.erase 0)
    ⟨[]⟩ rfl rfl rfl rfl rfl (by decide)
  exact ⟨h.1.trans rfl, h.2.2⟩

/-- Claim C7: the merged system view maps a binding present in custom to
custom's action and a binding present only in defaults to defaults' action,
and the two merge implementations — `on_enter`'s remove-then-insert loop and
`shortcuts_system_config`'s extend — agree on every lookup; `on_enter`
rebuilds the models over the remove-then-insert merge. -/
theorem C7_merge_equivalence (m : Model) (d c : Shortcuts)
    (hd : m.config.defaultsRes = .ok d) (hc : m.config.customRes = .ok c)
    (hnd : keysNodup c.entries = true) :
    (∀ b, getKey (mergeOnEnter d.entries c.entries) b
        = getKey (mergeExtend d.entries c.entries) b)
    ∧ m.shortcuts_system_config = ⟨mergeExtend d.entries c.entries⟩
    ∧ m.on_enter.shortcut_models = m.actions d ⟨mergeOnEnter d.entries c.entries⟩
    ∧ (∀ b, getKey (mergeOnEnter d.entries c.entries) b
        = overrideLookup c.entries d.entries b) := by
  have hdg : m.config.defaultsGet = d := by
    simp [ConfigStore.defaultsGet, hd]
  refine ⟨fun b => mergeOnEnter_eq_extend c.entries d.entries b, ?_,
    on_enter_models m d c hd hc,
    fun b => mergeOnEnter_lookup c.entries d.entries b hnd⟩
  rw [system_config_eq m c hc, hdg]

/-- Claim C7 witness: on the example store the merged view is the extend
merge of the defaults, and lookups go through the custom-overrides rule. -/
theorem C7_witness :
    exM.shortcuts_system_config
        = ⟨mergeExtend exDefaults.entries (⟨[]⟩ : Shortcuts).entries⟩
    ∧ getKey (mergeOnEnter exDefaults.entries (⟨[]⟩ : Shortcuts).entries) bB
        = overrideLookup (⟨[]⟩ : Shortcuts).entries exDefaults.entries bB := by
  have h := C7_merge_equivalence exM exDefaults ⟨[]⟩ rfl rfl (by decide)
  exact ⟨h.2.1, h.2.2.2 bB⟩

/-- Claim C2: applying a staged replace confirmation for binding B on a row
of action A1 removes B's custom entry (revoking any other action's claim,
including the previous owner's), removes the target row's previous binding
from custom, inserts (B → A1), and — with the models rebuilt by the standard
per-action factory over the reloaded merge — exactly one row across all
models holds B afterwards. -/
theorem C2_apply_replace_unique_owner (m : Model) (short_id id : Nat)
    (model : ShortcutModel) (shortcut : ShortcutBinding) (B : Binding) (A2 : Action)
    (lbl : String) (d c : Shortcuts) (acts : List Action)
    (hdialog : m.replace_dialog = some (id, B, A2, lbl))
    (hctx : m.shortcut_context = some short_id)
    (hmodel : m.shortcut_models.get? short_id = some model)
    (hrow : model.bindings.get? id = some shortcut)
    (hprev : (shortcut.binding == B) = false)
    (hd : m.config.defaultsRes = .ok d)
    (hc : m.config.customRes = .ok c)
    (hndd : keysNodup d.entries = true)
    (hndc : keysNodup c.entries = true)
    (hacts : m.actions = standardActions acts)
    (hactsnd : acts.Nodup)
    (hmem : model.action ∈ acts) :
    m.update .ApplyReplace = .ok (m.applyReplace, .none)
    ∧ m.applyReplace.config.customRes
        = .ok ⟨insertKey (removeKey (removeKey c.entries B) shortcut.binding) B model.action⟩
    ∧ getKey (insertKey (removeKey (removeKey c.entries B) shortcut.binding) B model.action) B
        = some model.action
    ∧ keysNodup (insertKey (removeKey (removeKey c.entries B) shortcut.binding) B model.action)
        = true
    ∧ (∀ a2, (B, a2) ∈ insertKey (removeKey (removeKey c.entries B) shortcut.binding) B
          model.action → a2 = model.action)
    ∧ countRowsHolding m.applyReplace.shortcut_models B = 1 := by
  obtain ⟨model2, hm2, hact2, hrow2⟩ :=
    removeFirstMatching_preserves m.shortcut_models.entries B short_id id model shortcut
      hmodel hrow hprev
  have hget3 : getKey (insertKey (removeKey (removeKey c.entries B) shortcut.binding) B
      model.action) B = some model.action := by
    rw [getKey_insertKey]
    simp
  have hnd2 : keysNodup (insertKey (removeKey (removeKey c.entries B) shortcut.binding) B
      model.action) = true :=
    keysNodup_insertKey _ B model.action
      (keysNodup_removeKey _ shortcut.binding (keysNodup_removeKey _ B hndc))
  have hnd2b : keysNodup (insertKey (removeKey (removeKey c.entries B) shortcut.binding) B
      model2.action) = true :=
    keysNodup_insertKey _ B model2.action
      (keysNodup_removeKey _ shortcut.binding (keysNodup_removeKey _ B hndc))
  refine ⟨rfl, ?_, hget3, hnd2, ?_, ?_⟩
  · unfold Model.applyReplace
    rw [hdialog]
    dsimp only
    rw [hctx]
    dsimp only [Model.config_remove, Model.config_add, Model.shortcuts_config,
      Model.shortcuts_config_set]
    rw [hc]
    dsimp only
    rw [hm2]
    dsimp only
    rw [hrow2]
    dsimp only
    rw [on_enter_config]
    dsimp only
    rw [hact2]
  · intro a2 hmem2
    have := getKey_of_mem_nodup _ B a2 hnd2 hmem2
    rw [hget3] at this
    injection this with h3
    exact h3.symm
  · unfold Model.applyReplace
    rw [hdialog]
    dsimp only
    rw [hctx]
    dsimp only [Model.config_remove, Model.config_add, Model.shortcuts_config,
      Model.shortcuts_config_set]
    rw [hc]
    dsimp only
    rw [hm2]
    dsimp only
    rw [hrow2]
    dsimp only
    have hfin : ∀ (mx : Model), mx.config.defaultsRes = .ok d →
        mx.config.customRes
          = .ok ⟨insertKey (removeKey (removeKey c.entries B) shortcut.binding) B
              model2.action⟩ →
        mx.actions = standardActions acts →
        countRowsHolding (mx.on_enter).shortcut_models B = 1 := by
      intro mx hxd hxc hxa
      rw [on_enter_models mx d _ hxd hxc, hxa]
      apply countRows_merged_one acts d _ B model.action
      · exact keysNodup_mergeOnEnter _ d.entries hndd
      · rw [show (⟨mergeOnEnter d.entries (insertKey (removeKey (removeKey c.entries B)
            shortcut.binding) B model2.action)⟩ : Shortcuts).entries
            = mergeOnEnter d.entries (insertKey (removeKey (removeKey c.entries B)
              shortcut.binding) B model2.action) from rfl]
        rw [mergeOnEnter_lookup _ _ _ hnd2b]
        unfold overrideLookup
        rw [getKey_insertKey]
        simp [hact2]
      · exact hactsnd
      · exact hmem
    apply hfin
    · exact hd
    · rfl
    · exact hacts

/-- Claim C2 witness: confirming the staged replacement of Ctrl+B onto the
terminal row leaves custom = Ctrl+B → terminal, and after the reload exactly
one row across all models holds Ctrl+B. -/
theorem C2_witness :
    exM2.applyReplace.config.customRes = .ok ⟨[(bB, aTerm)]⟩
    ∧ countRowsHolding exM2.applyReplace.shortcut_models bB = 1 := by
  have h := C2_apply_replace_unique_owner exM2 0 0 exModelT
    { id := 0, binding := bT, input := "", is_default := true, editing := false }
    bB aBrow (conflictLabel aBrow bB) exDefaults ⟨[]⟩ [aTerm, aBrow]
    rfl rfl rfl rfl rfl rfl rfl (by decide) (by decide) rfl (by decide) (by decide)
  exact ⟨h.2.1.trans rfl, h.2.2.2.2.2⟩

end Cosmic
